import Mathlib

/-!
Country cache service: refresh pipeline and summary renderer.

A shallow embedding of `src/controllers/country.controller.js` (the refresh
pipeline) and `src/services/image.service.js` (the summary renderer).

Conventions of the embedding.

* JavaScript numbers are modelled by rationals and the arithmetic of the source
  is kept expression for expression. The product inside `getRandomMultiplier`
  is rounded to binary64 before `Math.floor` is applied, because there the
  rounding can change the result by a whole unit; the quotient that gives
  `estimated_gdp` is kept exact.
* A JavaScript property that can be absent, `null` or a value is a `Js α`.
  "Null" in the statements below means nullish (`null` or `undefined`), which
  is how both end up in a nullable column.
* The outcome of every awaited external effect (opening the transaction, the
  two HTTP requests, each upsert, the metadata update, commit, rollback, and the
  effects inside the renderer) and the values returned by `Math.random()` and
  `new Date()` are inputs of the model, collected in `Env`.
* The store is an external collaborator: rows are keyed by equality of `name`,
  a write made in a transaction is not persisted before `commit`, an upsert
  leaves `undefined` attributes out of its statement, a transaction is finished
  by `commit` whether it succeeds or not, and a `DECIMAL` column is read back as
  a string. Console output of the handler is left out; that of the renderer is
  kept.
-/

namespace CountryCache

/-! ## JavaScript values -/

/-- A JavaScript property of static type `α` that may also be `undefined`
(absent) or `null`. -/
inductive Js (α : Type) where
  | undefined : Js α
  | null : Js α
  | val (a : α) : Js α
deriving DecidableEq, Repr

/-- Nullish test: `v === null || v === undefined`. -/
def Js.isNullish {α : Type} : Js α → Bool
  | .undefined => true
  | .null => true
  | .val _ => false

/-- Truthiness of a number-or-missing value: `undefined`, `null` and `0` are
falsy. -/
def truthyNum : Js ℚ → Bool
  | .val q => decide (q ≠ 0)
  | _ => false

/-- Truthiness of a string-or-missing value: `undefined`, `null` and the empty
string are falsy. -/
def truthyStr : Js String → Bool
  | .val s => decide (s ≠ "")
  | _ => false

/-! ## Binary64 arithmetic -/

/-- Rounding to the nearest integer, ties to the even one. -/
def roundHalfEven (y : ℚ) : ℤ :=
  if y - ⌊y⌋ < 1 / 2 then ⌊y⌋
  else if 1 / 2 < y - ⌊y⌋ then ⌊y⌋ + 1
  else if ⌊y⌋ % 2 = 0 then ⌊y⌋ else ⌊y⌋ + 1

/-- Exponent of the unit in the last place of the binary64 format at `x`: 52
below the binary exponent of `x`, and never below that of the subnormals. -/
def ulpExponent (x : ℚ) : ℤ :=
  max (Int.log 2 |x| - 52) (-1074)

/-- The binary64 number nearest to `x`, ties to even (overflow to infinity is
not modelled; the values rounded here stay below 1024). -/
def roundBinary64 (x : ℚ) : ℚ :=
  (roundHalfEven (x / 2 ^ ulpExponent x) : ℚ) * 2 ^ ulpExponent x

/-- A value of `Math.random()`: a binary64 number `r` with `0 ≤ r < 1`, given by
its significand and the (negated) exponent of its last bit,
`r = significand / 2 ^ shift`. -/
structure RandomNumber where
  significand : ℕ
  shift : ℕ
  significand_lt : significand < 2 ^ 53
  lt_one : significand < 2 ^ shift
  shift_le : shift ≤ 1074

/-- The number a `RandomNumber` stands for. -/
def RandomNumber.value (r : RandomNumber) : ℚ :=
  (r.significand : ℚ) / 2 ^ r.shift

/-! ## Upstream payloads -/

/-- One element of a country's `currencies` array. -/
structure RawCurrency where
  code : Js String
deriving DecidableEq, Repr

/-- One raw entry of the countries payload. `currencies` is `none` when the
property is absent or `null`, and a (possibly empty) array otherwise; an array
element may itself be `null` (`none`). -/
structure RawCountry where
  name : Js String
  capital : Js String
  region : Js String
  population : Js ℚ
  flag : Js String
  currencies : Option (List (Option RawCurrency))
deriving DecidableEq, Repr

/-- The `rates` object of the exchange-rate payload, by its own properties. -/
abbrev Rates := List (String × ℚ)

/-- Names of the members every object inherits from `Object.prototype`. -/
def objectPrototypeKeys : List String :=
  ["constructor", "toString", "toLocaleString", "valueOf", "hasOwnProperty",
    "isPrototypeOf", "propertyIsEnumerable", "__proto__", "__defineGetter__",
    "__defineSetter__", "__lookupGetter__", "__lookupSetter__"]

/-- What a property read on the `rates` object can return besides `undefined`:
a rate, or the function or object inherited under a name of
`Object.prototype`. -/
inductive RateValue where
  | num (q : ℚ) : RateValue
  | inherited (key : String) : RateValue
deriving DecidableEq, Repr

/-- Property read `exchangeRates[key]`: the own property when there is one,
else the inherited member when `key` names one, else `undefined`. -/
def Rates.get (rates : Rates) (key : String) : Js RateValue :=
  match rates.lookup key with
  | some x => .val (.num x)
  | none => if key ∈ objectPrototypeKeys then .val (.inherited key) else .undefined

/-- Truthiness of the result of a property read on `rates`: a function or
object is truthy, a number is truthy unless it is `0`. -/
def truthyRate : Js RateValue → Bool
  | .val (.num q) => decide (q ≠ 0)
  | .val (.inherited _) => true
  | _ => false

/-- The test "`key` is a key of the rates mapping". -/
def Rates.hasKey (rates : Rates) (key : String) : Bool :=
  (rates.lookup key).isSome

/-! ## Record transformer (`refreshCountries`, loop body) -/

/-- The helper `getRandomMultiplier`, as a function of the value `r` returned
by `Math.random()`: `Math.floor(r * (2000 - 1000 + 1)) + 1000`, the product
being the binary64 product. -/
def getRandomMultiplier (r : RandomNumber) : ℤ :=
  ⌊roundBinary64 (r.value * (2000 - 1000 + 1))⌋ + 1000

/-- The value of `estimatedGdp` when it is computed: a number, or `NaN` when
the divisor is not a number. -/
inductive GdpValue where
  | num (q : ℚ) : GdpValue
  | nan : GdpValue
deriving DecidableEq, Repr

/-- The object `countryRecord` handed to `Country.upsert`. -/
structure UpsertValues where
  name : Js String
  capital : Js String
  region : Js String
  population : Js ℚ
  currency_code : Js String
  exchange_rate : Js RateValue
  estimated_gdp : Js GdpValue
  flag_url : Js String
deriving DecidableEq, Repr

/-- The step `countryData.currencies ? countryData.currencies[0] : null`, where
the result is `none` when falsy (`null`, or `undefined` for an empty array). -/
def firstCurrency (c : RawCountry) : Option RawCurrency :=
  match c.currencies with
  | none => none
  | some [] => none
  | some (x :: _) => x

/-- The step `currency ? currency.code : null`. -/
def currencyCodeOf (c : RawCountry) : Js String :=
  match firstCurrency c with
  | some cur => cur.code
  | none => .null

/-- The step `currencyCode ? exchangeRates[currencyCode] : null`. -/
def exchangeRateOf (rates : Rates) (currencyCode : Js String) : Js RateValue :=
  if truthyStr currencyCode then
    match currencyCode with
    | .val s => rates.get s
    | _ => .null
  else .null

/-- The guard `countryData.population && exchangeRate` of the GDP step. -/
def gdpGuard (population : Js ℚ) (exchangeRate : Js RateValue) : Bool :=
  truthyNum population && truthyRate exchangeRate

/-- The GDP step: `estimatedGdp` stays `null` unless the guard holds, and is
then `(population * getRandomMultiplier()) / exchangeRate`, with `r` the value
that `Math.random()` returns for this country; dividing by a function or an
object gives `NaN`. -/
def estimatedGdpOf (population : Js ℚ) (exchangeRate : Js RateValue) (r : RandomNumber) :
    Js GdpValue :=
  if gdpGuard population exchangeRate then
    match population, exchangeRate with
    | .val p, .val (.num x) => .val (.num ((p * (getRandomMultiplier r : ℚ)) / x))
    | .val _, .val (.inherited _) => .val .nan
    | _, _ => .null
  else .null

/-- The loop body of `refreshCountries` up to the upsert: the record built from
one raw entry and the rates mapping. -/
def countryRecord (c : RawCountry) (rates : Rates) (r : RandomNumber) : UpsertValues :=
  let currencyCode := currencyCodeOf c
  let exchangeRate := exchangeRateOf rates currencyCode
  { name := c.name
    capital := c.capital
    region := c.region
    population := c.population
    currency_code := currencyCode
    exchange_rate := exchangeRate
    estimated_gdp := estimatedGdpOf c.population exchangeRate r
    flag_url := c.flag }

/-! ## The store and its transaction

The relational store is an external collaborator. Its tables are modelled by
their contents, a write carrying `transaction: t` acts on the working copy of
the open transaction, `commit` installs the working copy and `rollback` drops
it; a write without a transaction would act on the persisted tables at once. -/

/-- A row of table `Countries`. The same shape serves for the attributes of one
upsert statement, where `undefined` marks an attribute left out of it. -/
structure CountryRecord where
  name : Js String
  capital : Js String
  region : Js String
  population : Js ℚ
  currency_code : Js String
  exchange_rate : Js ℚ
  estimated_gdp : Js ℚ
  flag_url : Js String
deriving DecidableEq, Repr

/-- The row of table `Metadata` (`last_refreshed_at` in milliseconds since the
epoch, `none` for SQL `NULL`). -/
structure MetadataRow where
  last_refreshed_at : Option ℤ
deriving DecidableEq, Repr

/-- Contents of the two tables: the country rows (attribute values of the last
write of each row) and the `Metadata` row with `id = 1`, if there is one. -/
structure Store where
  countries : List CountryRecord
  metadata : Option MetadataRow
deriving DecidableEq, Repr

/-- What the handler has done so far, in order. -/
inductive Event where
  | transactionOpened
  | fetched
  | upserted (name : Js String)
  | metadataUpdated
  | committed
  | imageGenerationStarted
  | rolledBack
  | responded (status : ℕ)
deriving DecidableEq, Repr

/-- The database as seen during one run of the handler: the persisted tables,
the working copy of the transaction `t`, whether `t` is finished, and the
trace of the run. -/
structure Db where
  persisted : Store
  working : Store
  finished : Bool
  trace : List Event
deriving DecidableEq, Repr

/-- A thrown value: the object `{ status, message }` thrown by the handler
itself, or any other exception (which carries no `status` of 503). -/
inductive Thrown where
  | custom (status : ℕ) (message : String)
  | other (what : String)
deriving DecidableEq, Repr

/-- The test `error.status === 503`. -/
def Thrown.isStatus503 : Thrown → Bool
  | .custom status _ => status == 503
  | .other _ => false

/-- The `message` property of a thrown value. -/
def Thrown.message : Thrown → String
  | .custom _ message => message
  | .other what => what

/-- Applies a write either to the working copy of the transaction (option
`transaction: t` given) or directly to the persisted tables. -/
def Db.write (db : Db) (inTransaction : Bool) (f : Store → Store) : Db :=
  if inTransaction then { db with working := f db.working }
  else { db with persisted := f db.persisted, working := f db.working }

/-- Model validation of `country.model.js`: `name` and `population` are
declared `allowNull: false`. -/
def validRecord (values : UpsertValues) : Bool :=
  !values.name.isNullish && !values.population.isNullish

/-- The `DECIMAL` attribute `exchange_rate` of the statement; a function or
object has no such value. -/
def rateColumn : Js RateValue → Option (Js ℚ)
  | .undefined => some .undefined
  | .null => some .null
  | .val (.num q) => some (.val q)
  | .val (.inherited _) => none

/-- The `DECIMAL` attribute `estimated_gdp` of the statement; `NaN` has no such
value. -/
def gdpColumn : Js GdpValue → Option (Js ℚ)
  | .undefined => some .undefined
  | .null => some .null
  | .val (.num q) => some (.val q)
  | .val .nan => none

/-- The attributes of the upsert statement for a record, if the store can take
them. -/
def toColumns (values : UpsertValues) : Option CountryRecord :=
  match rateColumn values.exchange_rate, gdpColumn values.estimated_gdp with
  | some exchange_rate, some estimated_gdp =>
      some { name := values.name
             capital := values.capital
             region := values.region
             population := values.population
             currency_code := values.currency_code
             exchange_rate := exchange_rate
             estimated_gdp := estimated_gdp
             flag_url := values.flag_url }
  | _, _ => none

/-- An attribute after an update: a value left out of the statement
(`undefined`) keeps what is stored. -/
def mergeAttr {α : Type} (new old : Js α) : Js α :=
  match new with
  | .undefined => old
  | v => v

/-- An attribute after an insert: a value left out of the statement takes the
column default `NULL`. -/
def insertAttr {α : Type} (new : Js α) : Js α :=
  match new with
  | .undefined => .null
  | v => v

/-- The stored row after the update branch of an upsert. -/
def mergeRecord (rec row : CountryRecord) : CountryRecord :=
  { name := mergeAttr rec.name row.name
    capital := mergeAttr rec.capital row.capital
    region := mergeAttr rec.region row.region
    population := mergeAttr rec.population row.population
    currency_code := mergeAttr rec.currency_code row.currency_code
    exchange_rate := mergeAttr rec.exchange_rate row.exchange_rate
    estimated_gdp := mergeAttr rec.estimated_gdp row.estimated_gdp
    flag_url := mergeAttr rec.flag_url row.flag_url }

/-- The stored row after the insert branch of an upsert. -/
def insertRecord (rec : CountryRecord) : CountryRecord :=
  { name := insertAttr rec.name
    capital := insertAttr rec.capital
    region := insertAttr rec.region
    population := insertAttr rec.population
    currency_code := insertAttr rec.currency_code
    exchange_rate := insertAttr rec.exchange_rate
    estimated_gdp := insertAttr rec.estimated_gdp
    flag_url := insertAttr rec.flag_url }

/-- Insert-or-update on the unique key `name`. -/
def upsertRows (rows : List CountryRecord) (rec : CountryRecord) : List CountryRecord :=
  if rows.any (fun row => decide (row.name = rec.name)) then
    rows.map (fun row => if row.name = rec.name then mergeRecord rec row else row)
  else rows ++ [insertRecord rec]

/-- The call `Country.upsert(countryRecord, options)`; `storeOk` is whether the
store executes the statement. -/
def Country.upsert (db : Db) (values : UpsertValues) (inTransaction storeOk : Bool) :
    Db × Except Thrown Unit :=
  if !validRecord values then (db, .error (.other "SequelizeValidationError"))
  else
    match toColumns values with
    | none => (db, .error (.other "SequelizeDatabaseError"))
    | some rec =>
        if !storeOk then (db, .error (.other "SequelizeDatabaseError"))
        else
          let db1 := db.write inTransaction
            (fun st => { st with countries := upsertRows st.countries rec })
          ({ db1 with trace := db1.trace ++ [.upserted rec.name] }, .ok ())

/-- The statement behind `Metadata.update(values, options)` with
`where: id = 1`: it changes the row when there is one and affects no row
otherwise. -/
def setLastRefreshed (last_refreshed_at : ℤ) (st : Store) : Store :=
  let row : MetadataRow := { last_refreshed_at := some last_refreshed_at }
  { st with metadata := st.metadata.map (fun _ => row) }

/-- The call `Metadata.update(values, options)`. -/
def Metadata.update (db : Db) (last_refreshed_at : ℤ) (inTransaction storeOk : Bool) :
    Db × Except Thrown Unit :=
  if !storeOk then (db, .error (.other "SequelizeDatabaseError"))
  else
    let db1 := db.write inTransaction (setLastRefreshed last_refreshed_at)
    ({ db1 with trace := db1.trace ++ [.metadataUpdated] }, .ok ())

/-- The call `t.commit()`: the transaction is finished afterwards, whether the
store executed the commit or not. -/
def Db.commit (db : Db) (storeOk : Bool) : Db × Except Thrown Unit :=
  if !storeOk then ({ db with finished := true }, .error (.other "SequelizeDatabaseError"))
  else
    ({ db with persisted := db.working, finished := true,
               trace := db.trace ++ [.committed] }, .ok ())

/-- The call `t.rollback()`, when the transaction is not finished and the store
executes it. -/
def Db.rollback (db : Db) : Db :=
  { db with working := db.persisted, trace := db.trace ++ [.rolledBack] }

/-! ## Built-ins used by the summary renderer -/

/-- A JavaScript value of one of the shapes a column read can return. -/
inductive JsVal where
  | undefined : JsVal
  | null : JsVal
  | num (q : ℚ) : JsVal
  | str (s : String) : JsVal
deriving DecidableEq, Repr

/-- Rounding to the nearest integer, ties away from zero. -/
def roundHalfAway (q : ℚ) : ℤ :=
  if 0 ≤ q then ⌊q + 1 / 2⌋ else -⌊-q + 1 / 2⌋

/-- Inserts a comma after every third character of a reversed digit list;
`k` counts the digits since the last comma. -/
def insertCommasRev : List Char → ℕ → List Char
  | [], _ => []
  | d :: ds, k =>
      if k = 3 then ',' :: d :: insertCommasRev ds 1 else d :: insertCommasRev ds (k + 1)

/-- Decimal digits of a natural number with a comma between each group of
three, counted from the right. -/
def groupThousands (n : ℕ) : String :=
  String.mk (insertCommasRev (Nat.repr n).data.reverse 0).reverse

/-- The built-in `Number.prototype.toLocaleString` at locale `en-US` with
`maximumFractionDigits: 0`, for a finite number. -/
def numberToLocaleString (q : ℚ) : String :=
  (if q < 0 then "-" else "") ++ groupThousands (roundHalfAway q).natAbs

/-- Left padding with zeros to a given width. -/
def zeroPad (width n : ℕ) : String :=
  String.mk (List.replicate (width - (Nat.repr n).length) '0') ++ Nat.repr n

/-- The text a `DECIMAL(_, scale)` column value is read back as: the stored
value is the number rounded to `scale` fractional digits, and the driver
returns it as a string (the controller parses such strings with
`parseFloat`). -/
def decimalString (scale : ℕ) (q : ℚ) : String :=
  let units := roundHalfAway (q * 10 ^ scale)
  (if units < 0 then "-" else "") ++ Nat.repr (units.natAbs / 10 ^ scale) ++
    (if scale = 0 then "" else "." ++ zeroPad scale (units.natAbs % 10 ^ scale))

/-- Reading a `DECIMAL` attribute of a loaded row. -/
def readDecimal (scale : ℕ) : Js ℚ → JsVal
  | .val q => .str (decimalString scale q)
  | _ => .null

/-- Names of the days of the week, Sunday first. -/
def dayNames : List String := ["Sun", "Mon", "Tue", "Wed", "Thu", "Fri", "Sat"]

/-- Names of the months. -/
def monthNames : List String :=
  ["Jan", "Feb", "Mar", "Apr", "May", "Jun", "Jul", "Aug", "Sep", "Oct", "Nov", "Dec"]

/-- Year, month (1 to 12) and day of the month of a day number counted from
1970-01-01, in the proleptic Gregorian calendar. -/
def civilFromDays (days : ℤ) : ℤ × ℕ × ℕ :=
  let z := days + 719468
  let era := z / 146097
  let doe := (z - era * 146097).toNat
  let yoe := (doe - doe / 1460 + doe / 36524 - doe / 146096) / 365
  let doy := doe - (365 * yoe + yoe / 4 - yoe / 100)
  let mp := (5 * doy + 2) / 153
  let d := doy - (153 * mp + 2) / 5 + 1
  let m := if mp < 10 then mp + 3 else mp - 9
  let y := (yoe : ℤ) + era * 400
  (if m ≤ 2 then y + 1 else y, m, d)

/-- The built-in `Date.prototype.toUTCString` of the date with time value `t`
(milliseconds since the epoch). -/
def toUTCString (t : ℤ) : String :=
  if t < -8640000000000000 ∨ 8640000000000000 < t then "Invalid Date"
  else
    let days := t / 86400000
    let ms := (t % 86400000).toNat
    let ymd := civilFromDays days
    dayNames.getD ((days + 4) % 7).toNat "" ++ ", " ++ zeroPad 2 ymd.2.2 ++ " " ++
      monthNames.getD (ymd.2.1 - 1) "" ++ " " ++ (if ymd.1 < 0 then "-" else "") ++
      zeroPad 4 ymd.1.natAbs ++ " " ++ zeroPad 2 (ms / 3600000) ++ ":" ++
      zeroPad 2 (ms / 60000 % 60) ++ ":" ++ zeroPad 2 (ms / 1000 % 60) ++ " GMT"

/-- The time value of `new Date(v)` for `v` a `Date` or `null`: `null` converts
to the number `0`. -/
def newDate : Option ℤ → ℤ
  | some t => t
  | none => 0

/-- Interpolation of a string-or-missing value in a template literal. -/
def templateStr : Js String → String
  | .val s => s
  | .null => "null"
  | .undefined => "undefined"

/-! ## Summary renderer (`image.service.js`) -/

/-- The helper `formatNumber`: `N/A` for `null` and `undefined`, otherwise
`num.toLocaleString(...)`, which for a string is the inherited
`Object.prototype.toLocaleString` and returns the string itself. -/
def formatNumber : JsVal → String
  | .null => "N/A"
  | .undefined => "N/A"
  | .num q => numberToLocaleString q
  | .str s => s

/-- A row as loaded by `Country.findAll`. -/
structure LoadedCountry where
  name : Js String
  estimated_gdp : JsVal
deriving DecidableEq, Repr

/-- Loading a stored row: `estimated_gdp` is a `DECIMAL(20, 2)` column. -/
def loadCountry (row : CountryRecord) : LoadedCountry :=
  { name := row.name, estimated_gdp := readDecimal 2 row.estimated_gdp }

/-- Sort key of `ORDER BY estimated_gdp DESC`: the stored value in hundredths,
`none` for `NULL`. -/
def gdpKey (row : CountryRecord) : Option ℤ :=
  match row.estimated_gdp with
  | .val q => some (roundHalfAway (q * 10 ^ 2))
  | _ => none

/-- Order of `ORDER BY estimated_gdp DESC`: larger values first, `NULL` last. -/
def gdpDescLe (a b : CountryRecord) : Bool :=
  match gdpKey a, gdpKey b with
  | some x, some y => decide (y ≤ x)
  | some _, none => true
  | none, some _ => false
  | none, none => true

/-- The query `Country.findAll` with `order: estimated_gdp DESC` and
`limit: 5` (rows with equal keys stay in storage order). -/
def findTop5 (store : Store) : List LoadedCountry :=
  ((store.countries.insertionSort (fun a b => gdpDescLe a b = true)).take 5).map loadCountry

/-- The expression
`metadata ? new Date(metadata.last_refreshed_at).toUTCString() : 'N/A'`. -/
def lastRefreshedOf (metadata : Option MetadataRow) : String :=
  match metadata with
  | some row => toUTCString (newDate row.last_refreshed_at)
  | none => "N/A"

/-- Text content of the `text` elements of the generated SVG document (layout
attributes and style sheet left out). -/
structure SummarySvg where
  title : String
  totalLine : String
  heading : String
  countryLines : List (String × String)
  lastRefreshedLine : String
deriving DecidableEq, Repr

/-- The template literal building the SVG. -/
def buildSvg (totalCountries : ℕ) (top5Countries : List LoadedCountry)
    (lastRefreshed : String) : SummarySvg :=
  { title := "Countries API Summary"
    totalLine := "Total Countries in DB: " ++ Nat.repr totalCountries
    heading := "Top 5 Countries by Estimated GDP (USD):"
    countryLines := top5Countries.enum.map (fun ic =>
      (Nat.repr (ic.1 + 1) ++ ". " ++ templateStr ic.2.name,
        "$" ++ formatNumber ic.2.estimated_gdp))
    lastRefreshedLine := "Last Refreshed: " ++ lastRefreshed }

/-- Outcomes of the effects awaited or called inside `generateSummaryImage`. -/
structure RenderEnv where
  countOk : Bool
  findAllOk : Bool
  findByPkOk : Bool
  bufferOk : Bool
  mkdirOk : Bool
  toFileOk : Bool
deriving DecidableEq, Repr

/-- One line of console output of the renderer. -/
inductive LogEntry where
  | info (message : String)
  | error (message : String) (error : Thrown)
deriving DecidableEq, Repr

/-- What a call of `generateSummaryImage` leaves behind: its console output
and, when the file was written, the document rendered into `summary.png`. -/
structure RenderResult where
  log : List LogEntry
  written : Option SummarySvg
deriving DecidableEq, Repr

/-- The `try` block of `generateSummaryImage` (console output apart). -/
def summaryTry (store : Store) (renv : RenderEnv) : Except Thrown SummarySvg :=
  if !renv.countOk then .error (.other "Country.count failed")
  else
    let totalCountries := store.countries.length
    if !renv.findAllOk then .error (.other "Country.findAll failed")
    else
      let top5Countries := findTop5 store
      if !renv.findByPkOk then .error (.other "Metadata.findByPk failed")
      else
        let lastRefreshed := lastRefreshedOf store.metadata
        let svg := buildSvg totalCountries top5Countries lastRefreshed
        if !renv.bufferOk then .error (.other "Buffer.from failed")
        else if !renv.mkdirOk then .error (.other "fs.mkdir failed")
        else if !renv.toFileOk then .error (.other "sharp toFile failed")
        else .ok svg

/-- The function `generateSummaryImage`: the `try` block, with every exception
caught and written to the console. The result type allows an exception to
escape; none is rethrown by the `catch` block. -/
def generateSummaryImage (store : Store) (renv : RenderEnv) : Except Thrown RenderResult :=
  match summaryTry store renv with
  | .ok svg =>
      .ok { log := [.info "Starting summary image generation...",
                    .info "Summary image saved to cache/summary.png"],
            written := some svg }
  | .error e =>
      .ok { log := [.info "Starting summary image generation...",
                    .error "Error generating summary image:" e],
            written := none }

/-! ## The refresh handler (`refreshCountries`) -/

/-- URL of the countries request. -/
def restCountriesUrl : String :=
  "https://restcountries.com/v2/all?fields=name,capital,region,population,flag,currencies"

/-- URL of the exchange-rate request. -/
def exchangeRateUrl : String := "https://open.er-api.com/v6/latest/USD"

/-- The built-in `String.prototype.includes`. -/
def includes (s sub : String) : Bool :=
  s.data.tails.any (fun t => sub.data.isPrefixOf t)

/-- Everything one run of the handler takes from outside: whether each awaited
effect succeeds, what the upstream requests return (`none` for a failed
request), which rejection reaches `Promise.all` first when both requests fail,
the value `Math.random()` returns if it is called for the country at a given
position, and the time read by `new Date()`. -/
structure Env where
  transactionOk : Bool
  countriesFetch : Option (List RawCountry)
  ratesFetch : Option Rates
  ratesFailedFirst : Bool
  random : ℕ → RandomNumber
  upsertOk : ℕ → Bool
  now : ℤ
  metadataOk : Bool
  commitOk : Bool
  rollbackOk : Bool
  render : RenderEnv

/-- Body of a response of the handler. -/
inductive Body where
  | refreshed (message : String) (countries_processed : ℕ)
  | unavailable (error details : String)
  | internal (error : String)
deriving DecidableEq, Repr

/-- A response sent by the handler. -/
structure Response where
  status : ℕ
  body : Body
deriving DecidableEq, Repr

/-- Outcome of one run: the persisted tables afterwards, the response (`none`
when the handler ends without sending one), the result of the renderer when it
was started, and the trace of the run. -/
structure RunResult where
  store : Store
  response : Option Response
  image : Option (Except Thrown RenderResult)
  trace : List Event

/-- The response `res.status(200).json(...)` of a successful run. -/
def successResponse (countries_processed : ℕ) : Response :=
  { status := 200
    body := .refreshed
      "Country data refreshed and cached successfully. Image generation started."
      countries_processed }

/-- The response `res.status(503).json(...)` of the `catch` block. -/
def unavailableResponse (details : String) : Response :=
  { status := 503, body := .unavailable "External data source unavailable" details }

/-- The response `res.status(500).json(...)` of the `catch` block. -/
def internalErrorResponse : Response :=
  { status := 500, body := .internal "Internal server error" }

/-- The URL `error.config.url` of the rejection that reaches the `catch`
callback of `Promise.all`, if a request failed. -/
def failedRequestUrl (env : Env) : Option String :=
  match env.countriesFetch, env.ratesFetch with
  | some _, some _ => none
  | none, some _ => some restCountriesUrl
  | some _, none => some exchangeRateUrl
  | none, none => some (if env.ratesFailedFirst then exchangeRateUrl else restCountriesUrl)

/-- The callback of `.catch` on `Promise.all`: the value it throws. -/
def fetchError (url : String) : Thrown :=
  let apiName := if includes url "restcountries" then "RestCountries" else "ExchangeRate-API"
  .custom 503 ("Could not fetch data from " ++ apiName)

/-- Step 1: both requests, awaited together. -/
def fetchAll (env : Env) : Except Thrown (List RawCountry × Rates) :=
  match env.countriesFetch, env.ratesFetch with
  | some countriesData, some exchangeRates => .ok (countriesData, exchangeRates)
  | _, _ =>
      match failedRequestUrl env with
      | some url => .error (fetchError url)
      | none => .error (.other "unreachable")

/-- Step 2: the `for` loop over `countriesData`, from position `i` on. -/
def processCountries (random : ℕ → RandomNumber) (upsertOk : ℕ → Bool) (exchangeRates : Rates) :
    List RawCountry → ℕ → Db → Db × Except Thrown Unit
  | [], _, db => (db, .ok ())
  | countryData :: rest, i, db =>
      match Country.upsert db (countryRecord countryData exchangeRates (random i)) true
          (upsertOk i) with
      | (db1, .error e) => (db1, .error e)
      | (db1, .ok ()) => processCountries random upsertOk exchangeRates rest (i + 1) db1

/-- The `try` block of `refreshCountries`. -/
def refreshTry (db : Db) (env : Env) :
    Db × Except Thrown (Response × Except Thrown RenderResult) :=
  match fetchAll env with
  | .error e => (db, .error e)
  | .ok (countriesData, exchangeRates) =>
      let db1 := { db with trace := db.trace ++ [.fetched] }
      match processCountries env.random env.upsertOk exchangeRates countriesData 0 db1 with
      | (db2, .error e) => (db2, .error e)
      | (db2, .ok ()) =>
          match Metadata.update db2 env.now true env.metadataOk with
          | (db3, .error e) => (db3, .error e)
          | (db3, .ok ()) =>
              match Db.commit db3 env.commitOk with
              | (db4, .error e) => (db4, .error e)
              | (db4, .ok ()) =>
                  let image := generateSummaryImage db4.persisted env.render
                  let db5 := { db4 with
                    trace := db4.trace ++ [.imageGenerationStarted, .responded 200] }
                  (db5, .ok (successResponse countriesData.length, image))

/-- The `catch` block of `refreshCountries`. The call `t.rollback()` throws
when the transaction is already finished (a commit was attempted) or when the
store does not execute it; the handler then ends without a response. -/
def refreshCatch (db : Db) (env : Env) (error : Thrown) : RunResult :=
  if db.finished || !env.rollbackOk then
    { store := db.persisted, response := none, image := none, trace := db.trace }
  else
    let db1 := db.rollback
    if error.isStatus503 then
      { store := db1.persisted
        response := some (unavailableResponse error.message)
        image := none
        trace := db1.trace ++ [.responded 503] }
    else
      { store := db1.persisted
        response := some internalErrorResponse
        image := none
        trace := db1.trace ++ [.responded 500] }

/-- The database right after `sequelize.transaction()` has returned `t`. -/
def openedDb (store : Store) : Db :=
  { persisted := store, working := store, finished := false,
    trace := [.transactionOpened] }

/-- The handler `refreshCountries`, run on the persisted tables `store`. The
transaction is opened before the `try` block: when that fails the handler ends
without a response. -/
def refreshCountries (store : Store) (env : Env) : RunResult :=
  if !env.transactionOk then
    { store := store, response := none, image := none, trace := [] }
  else
    match refreshTry (openedDb store) env with
    | (db, .ok (response, image)) =>
        { store := db.persisted, response := some response, image := some image,
          trace := db.trace }
    | (db, .error e) => refreshCatch db env e

/-- Whether every upsert of the loop succeeds, from position `i` on: the record
passes validation, its values fit their columns, and the store executes the
statement. -/
def upsertsOk (random : ℕ → RandomNumber) (upsertOk : ℕ → Bool) (exchangeRates : Rates) :
    List RawCountry → ℕ → Bool
  | [], _ => true
  | countryData :: rest, i =>
      validRecord (countryRecord countryData exchangeRates (random i)) &&
        (toColumns (countryRecord countryData exchangeRates (random i))).isSome &&
        upsertOk i && upsertsOk random upsertOk exchangeRates rest (i + 1)

/-- Whether both fetches, every upsert, the metadata update and the commit
succeed. -/
def pipelineOk (env : Env) : Bool :=
  match env.countriesFetch, env.ratesFetch with
  | some countriesData, some exchangeRates =>
      upsertsOk env.random env.upsertOk exchangeRates countriesData 0 && env.metadataOk && env.commitOk
  | _, _ => false

/-- Whether the run reaches `t.commit()`: both fetches, every upsert and the
metadata update succeed. -/
def commitAttempted (env : Env) : Bool :=
  match env.countriesFetch, env.ratesFetch with
  | some countriesData, some exchangeRates =>
      upsertsOk env.random env.upsertOk exchangeRates countriesData 0 && env.metadataOk
  | _, _ => false

/-- An attribute of a stored row agrees with the statement that wrote it: the
statement left it out, or the row holds the value written. -/
def attrWritten {α : Type} (new stored : Js α) : Prop :=
  new = .undefined ∨ stored = new

/-- The stored row `row` is what an upsert of the attributes `rec` leaves
behind. -/
def writtenFrom (rec row : CountryRecord) : Prop :=
  attrWritten rec.name row.name ∧ attrWritten rec.capital row.capital ∧
  attrWritten rec.region row.region ∧ attrWritten rec.population row.population ∧
  attrWritten rec.currency_code row.currency_code ∧
  attrWritten rec.exchange_rate row.exchange_rate ∧
  attrWritten rec.estimated_gdp row.estimated_gdp ∧ attrWritten rec.flag_url row.flag_url

/-- Whether the run sent the success response. -/
def RunResult.succeeded (res : RunResult) : Bool :=
  match res.response with
  | some response => response.status == 200
  | none => false

/-- The database after the `try` block of a run in which every step succeeds:
the loop has run, the timestamp is set, and the working copy is installed. -/
def committedDb (db : Db) (env : Env) (cs : List RawCountry) (rs : Rates) : Db :=
  let db2 := (processCountries env.random env.upsertOk rs cs 0 { db with trace := db.trace ++ [.fetched] }).1
  { persisted := setLastRefreshed env.now db2.working
    working := setLastRefreshed env.now db2.working
    finished := true
    trace := db2.trace ++ [.metadataUpdated] ++ [.committed] ++
      [.imageGenerationStarted, .responded 200] }

/-! ## Examples used below -/

/-- The random value `0.5`. -/
def randomHalf : RandomNumber :=
  { significand := 1, shift := 1, significand_lt := by decide, lt_one := by decide,
    shift_le := by decide }

/-- The random value `0`. -/
def randomZero : RandomNumber :=
  { significand := 0, shift := 0, significand_lt := by decide, lt_one := by decide,
    shift_le := by decide }

/-- The binary64 number `0.022977022977022976`, a multiple of `2 ^ (-52)`. -/
def nearTwentyThree : RandomNumber :=
  { significand := 25869828029351, shift := 50, significand_lt := by decide,
    lt_one := by decide, shift_le := by decide }

/-- The entry `Testland` of the specification. -/
def testland : RawCountry :=
  { name := .val "Testland", capital := .undefined, region := .undefined,
    population := .val 1000000, flag := .undefined,
    currencies := some [some { code := .val "XYZ" }] }

/-- The rates mapping with the single key `XYZ` at rate `2.0`. -/
def testRates : Rates := [("XYZ", 2)]

/-- An entry whose currency code is the name of an inherited member. -/
def constructorland : RawCountry :=
  { testland with currencies := some [some { code := .val "constructor" }] }

/-- A second raw entry, without currencies. -/
def otherland : RawCountry :=
  { name := .val "Otherland", capital := .undefined, region := .undefined,
    population := .val 5, flag := .undefined, currencies := none }

/-- A stored row that no upstream entry names, with a GDP of 1234567.89. -/
def oldRecord : CountryRecord :=
  { name := .val "Oldland", capital := .null, region := .null, population := .val 10,
    currency_code := .null, exchange_rate := .null,
    estimated_gdp := .val (123456789 / 100), flag_url := .null }

/-- A store holding `oldRecord` and the metadata row as created at start-up,
with no timestamp yet. -/
def sampleStore : Store :=
  { countries := [oldRecord], metadata := some { last_refreshed_at := none } }

/-- A store with no country and the metadata row without timestamp. -/
def freshStore : Store :=
  { countries := [], metadata := some { last_refreshed_at := none } }

/-- Every effect of the renderer succeeds. -/
def renderOk : RenderEnv :=
  { countOk := true, findAllOk := true, findByPkOk := true, bufferOk := true,
    mkdirOk := true, toFileOk := true }

/-- A run in which every effect succeeds, fetching `testland` and
`otherland`. -/
def okEnv : Env :=
  { transactionOk := true
    countriesFetch := some [testland, otherland]
    ratesFetch := some testRates
    ratesFailedFirst := false
    random := fun _ => randomHalf
    upsertOk := fun _ => true
    now := 1762300800000
    metadataOk := true
    commitOk := true
    rollbackOk := true
    render := renderOk }

/-- As `okEnv`, but the store rejects the second upsert. -/
def secondUpsertFails : Env :=
  { okEnv with upsertOk := fun i => decide (i < 1) }

/-- As `okEnv`, but the transaction cannot be opened. -/
def transactionFails : Env :=
  { okEnv with transactionOk := false }

/-- As `okEnv`, but the store does not execute the commit. -/
def commitFails : Env :=
  { okEnv with commitOk := false }

/-- As `okEnv`, but the first upsert is rejected and then the rollback throws. -/
def rollbackFails : Env :=
  { okEnv with upsertOk := fun _ => false, rollbackOk := false }

/-- As `okEnv`, but the countries request fails. -/
def countriesDown : Env :=
  { okEnv with countriesFetch := none }

/-- As `okEnv`, but the directory of the image cannot be created. -/
def mkdirFails : Env :=
  { okEnv with render := { renderOk with mkdirOk := false } }

/-- A store without the metadata row. -/
def noMetadataStore : Store :=
  { countries := [], metadata := none }

/-- A store whose metadata row holds the timestamp 2025-11-05T00:00:00Z. -/
def stampedStore : Store :=
  { countries := [], metadata := some { last_refreshed_at := some 1762300800000 } }

/-! ## Binary64 rounding -/

theorem floor_le_roundHalfEven (y : ℚ) : ⌊y⌋ ≤ roundHalfEven y := by
  unfold roundHalfEven
  split_ifs <;> omega

theorem roundHalfEven_le_ceil (y : ℚ) : roundHalfEven y ≤ ⌈y⌉ := by
  unfold roundHalfEven
  have h1 : ⌊y⌋ ≤ ⌈y⌉ := Int.floor_le_ceil y
  by_cases hy : y - ⌊y⌋ < 1 / 2
  · simp only [hy, if_true]; exact h1
  · have hne : (⌊y⌋ : ℚ) < y := by linarith
    have h2 : ⌊y⌋ + 1 ≤ ⌈y⌉ := by
      have : ⌊y⌋ < ⌈y⌉ := by
        rw [Int.lt_ceil]
        exact hne
      omega
    simp only [hy, if_false]
    split_ifs <;> omega

theorem roundHalfEven_intCast (n : ℤ) : roundHalfEven (n : ℚ) = n := by
  unfold roundHalfEven
  simp

theorem roundHalfEven_le_of_lt (y : ℚ) (n : ℤ) (h : y < (n : ℚ) - 1 / 2) :
    roundHalfEven y ≤ n - 1 := by
  have hf : (⌊y⌋ : ℚ) ≤ y := Int.floor_le y
  have hfl : ⌊y⌋ ≤ n - 1 := by
    have : (⌊y⌋ : ℚ) < n := by linarith
    have : ⌊y⌋ < n := by exact_mod_cast this
    omega
  unfold roundHalfEven
  by_cases hy : y - ⌊y⌋ < 1 / 2
  · simp only [hy, if_true]; exact hfl
  · have hlt : ⌊y⌋ + 1 ≤ n - 1 := by
      have h3 : (⌊y⌋ : ℚ) + 1 / 2 ≤ y := by linarith
      have h4 : (⌊y⌋ : ℚ) + 1 < n := by linarith
      have h5 : ⌊y⌋ + 1 < n := by exact_mod_cast h4
      omega
    simp only [hy, if_false]
    split_ifs <;> omega

theorem log_lt_of_lt_zpow (x : ℚ) (hx : 0 < x) (n : ℤ) (h : x < 2 ^ n) : Int.log 2 x < n :=
  (Int.lt_zpow_iff_log_lt (by norm_num) hx).mp (by exact_mod_cast h)

theorem le_log_of_zpow_le (x : ℚ) (hx : 0 < x) (n : ℤ) (h : (2 : ℚ) ^ n ≤ x) : n ≤ Int.log 2 x :=
  (Int.zpow_le_iff_le_log (by norm_num) hx).mp (by exact_mod_cast h)


theorem ulpExponent_le (x : ℚ) (hx : 0 < x) (n : ℤ) (hn : -1074 ≤ n) (h : x < 2 ^ (n + 53)) :
    ulpExponent x ≤ n := by
  unfold ulpExponent
  rw [abs_of_pos hx]
  have := log_lt_of_lt_zpow x hx (n + 53) h
  omega

theorem roundBinary64_zero : roundBinary64 0 = 0 := by
  simp [roundBinary64, roundHalfEven]

theorem roundBinary64_eq (x : ℚ) (k : ℕ) (hk : ulpExponent x = -(k : ℤ)) :
    roundBinary64 x = (roundHalfEven (x * 2 ^ k) : ℚ) / 2 ^ k := by
  unfold roundBinary64
  rw [hk, zpow_neg, zpow_natCast, div_inv_eq_mul, div_eq_mul_inv]

theorem exists_ulp_nat (x : ℚ) (hx : 0 < x) (n : ℕ) (hn : n ≤ 1074)
    (h : x * 2 ^ n < 2 ^ 53) :
    ∃ k : ℕ, n ≤ k ∧ ulpExponent x = -(k : ℤ) := by
  have hz : x < 2 ^ (-(n : ℤ) + 53) := by
    rw [zpow_add₀ (by norm_num), zpow_neg, zpow_natCast]
    have h53 : ((2 : ℚ) ^ (53 : ℤ)) = 2 ^ 53 := by norm_cast
    rw [h53, inv_mul_eq_div, lt_div_iff₀ (by positivity)]
    exact h
  have hle := ulpExponent_le x hx (-(n : ℤ)) (by omega) hz
  refine ⟨(-ulpExponent x).toNat, by omega, by omega⟩

theorem roundBinary64_nonneg (x : ℚ) (hx : 0 ≤ x) (hlt : x < 2 ^ 53) :
    0 ≤ roundBinary64 x := by
  rcases eq_or_lt_of_le hx with h0 | hpos
  · rw [← h0, roundBinary64_zero]
  obtain ⟨k, -, hk⟩ := exists_ulp_nat x hpos 0 (by omega) (by simpa using hlt)
  rw [roundBinary64_eq x k hk]
  have h1 : (0 : ℤ) ≤ roundHalfEven (x * 2 ^ k) :=
    le_trans (Int.floor_nonneg.mpr (by positivity)) (floor_le_roundHalfEven _)
  have : (0 : ℚ) ≤ (roundHalfEven (x * 2 ^ k) : ℚ) := by exact_mod_cast h1
  positivity

theorem le_roundBinary64 (x : ℚ) (hx : 0 ≤ x) (hlt : x < 2 ^ 53) (n : ℤ) (hn : (n : ℚ) ≤ x) :
    (n : ℚ) ≤ roundBinary64 x := by
  rcases eq_or_lt_of_le hx with h0 | hpos
  · rw [← h0, roundBinary64_zero]
    rw [← h0] at hn
    exact hn
  obtain ⟨k, -, hk⟩ := exists_ulp_nat x hpos 0 (by omega) (by simpa using hlt)
  rw [roundBinary64_eq x k hk, le_div_iff₀ (by positivity)]
  have h1 : ((n * 2 ^ k : ℤ) : ℚ) ≤ x * 2 ^ k := by
    push_cast
    exact mul_le_mul_of_nonneg_right hn (by positivity)
  have h2 : n * 2 ^ k ≤ ⌊x * 2 ^ k⌋ := Int.le_floor.mpr h1
  have h3 := le_trans h2 (floor_le_roundHalfEven (x * 2 ^ k))
  have h4 : ((n * 2 ^ k : ℤ) : ℚ) ≤ (roundHalfEven (x * 2 ^ k) : ℚ) := by exact_mod_cast h3
  push_cast at h4
  exact h4

theorem roundBinary64_le (x : ℚ) (hx : 0 ≤ x) (hlt : x < 2 ^ 53) (n : ℤ) (hn : x ≤ (n : ℚ)) :
    roundBinary64 x ≤ (n : ℚ) := by
  rcases eq_or_lt_of_le hx with h0 | hpos
  · rw [← h0, roundBinary64_zero]
    rw [← h0] at hn
    exact hn
  obtain ⟨k, -, hk⟩ := exists_ulp_nat x hpos 0 (by omega) (by simpa using hlt)
  rw [roundBinary64_eq x k hk, div_le_iff₀ (by positivity)]
  have h1 : x * 2 ^ k ≤ ((n * 2 ^ k : ℤ) : ℚ) := by
    push_cast
    exact mul_le_mul_of_nonneg_right hn (by positivity)
  have h2 : ⌈x * 2 ^ k⌉ ≤ n * 2 ^ k := Int.ceil_le.mpr h1
  have h3 := le_trans (roundHalfEven_le_ceil (x * 2 ^ k)) h2
  have h4 : (roundHalfEven (x * 2 ^ k) : ℚ) ≤ ((n * 2 ^ k : ℤ) : ℚ) := by exact_mod_cast h3
  push_cast at h4
  exact h4

theorem roundBinary64_lt_1001 (x : ℚ) (hx : 0 ≤ x) (h : x ≤ 1001 * (1 - 1 / 2 ^ 53)) :
    roundBinary64 x < 1001 := by
  rcases eq_or_lt_of_le hx with h0 | hpos
  · rw [← h0, roundBinary64_zero]
    norm_num
  have hlt : x * 2 ^ 43 < 2 ^ 53 := by
    have : (1001 : ℚ) * (1 - 1 / 2 ^ 53) * 2 ^ 43 < 2 ^ 53 := by norm_num
    have h1 : x * 2 ^ 43 ≤ 1001 * (1 - 1 / 2 ^ 53) * 2 ^ 43 :=
      mul_le_mul_of_nonneg_right h (by positivity)
    linarith
  obtain ⟨k, hk43, hk⟩ := exists_ulp_nat x hpos 43 (by omega) hlt
  rw [roundBinary64_eq x k hk, div_lt_iff₀ (by positivity)]
  have hpow : (2 : ℚ) ^ 43 ≤ 2 ^ k := pow_le_pow_right₀ (by norm_num) hk43
  have hy : x * 2 ^ k < ((1001 * 2 ^ k : ℤ) : ℚ) - 1 / 2 := by
    push_cast
    have h1 : x * 2 ^ k ≤ 1001 * (1 - 1 / 2 ^ 53) * 2 ^ k :=
      mul_le_mul_of_nonneg_right h (by positivity)
    have h2 : (1001 : ℚ) * (1 - 1 / 2 ^ 53) * 2 ^ k = 1001 * 2 ^ k - 1001 / 2 ^ 53 * 2 ^ k := by
      ring
    have h3 : (1 : ℚ) / 2 < 1001 / 2 ^ 53 * 2 ^ k := by
      have : (1001 : ℚ) / 2 ^ 53 * 2 ^ 43 ≤ 1001 / 2 ^ 53 * 2 ^ k :=
        mul_le_mul_of_nonneg_left hpow (by positivity)
      have h4 : (1 : ℚ) / 2 < 1001 / 2 ^ 53 * 2 ^ 43 := by norm_num
      linarith
    linarith
  have h5 := roundHalfEven_le_of_lt (x * 2 ^ k) (1001 * 2 ^ k) hy
  have h6 : (roundHalfEven (x * 2 ^ k) : ℚ) ≤ ((1001 * 2 ^ k - 1 : ℤ) : ℚ) := by
    exact_mod_cast h5
  push_cast at h6
  linarith

theorem roundBinary64_exact (n s : ℕ) (hn : n < 2 ^ 53) (hs : s ≤ 1074) :
    roundBinary64 ((n : ℚ) / 2 ^ s) = (n : ℚ) / 2 ^ s := by
  rcases Nat.eq_zero_or_pos n with h0 | hpos
  · subst h0
    simp [roundBinary64_zero]
  have hx : (0 : ℚ) < (n : ℚ) / 2 ^ s := by
    have : (0 : ℚ) < (n : ℚ) := by exact_mod_cast hpos
    positivity
  have hlt : (n : ℚ) / 2 ^ s * 2 ^ s < 2 ^ 53 := by
    rw [div_mul_cancel₀ _ (by positivity)]
    exact_mod_cast hn
  obtain ⟨k, hks, hk⟩ := exists_ulp_nat _ hx s hs hlt
  rw [roundBinary64_eq _ k hk]
  obtain ⟨d, rfl⟩ := Nat.exists_eq_add_of_le hks
  have hy : (n : ℚ) / 2 ^ s * 2 ^ (s + d) = ((n * 2 ^ d : ℤ) : ℚ) := by
    push_cast
    rw [pow_add]
    field_simp
    ring
  rw [hy, roundHalfEven_intCast]
  push_cast
  rw [pow_add]
  field_simp
  ring

theorem le_of_isBinary64_lt_one (r : ℚ) (h0 : 0 ≤ r) (h1 : r < 1)
    (hb : roundBinary64 r = r) : r ≤ 1 - 1 / 2 ^ 53 := by
  by_contra hcon
  push_neg at hcon
  have hpos : 0 < r := by
    have : (0 : ℚ) < 1 - 1 / 2 ^ 53 := by norm_num
    linarith
  have hlog : Int.log 2 r = -1 := by
    have hlo := le_log_of_zpow_le r hpos (-1) (by
      have : ((2 : ℚ) ^ (-1 : ℤ)) = 1 / 2 := by norm_num
      rw [this]
      have : (1 : ℚ) / 2 < 1 - 1 / 2 ^ 53 := by norm_num
      linarith)
    have hhi := log_lt_of_lt_zpow r hpos 0 (by simpa using h1)
    omega
  have hk : ulpExponent r = -((53 : ℕ) : ℤ) := by
    unfold ulpExponent
    rw [abs_of_nonneg h0, hlog]
    norm_num
  rw [roundBinary64_eq r 53 hk] at hb
  have hn : (roundHalfEven (r * 2 ^ 53) : ℚ) < 2 ^ 53 := by
    have : (roundHalfEven (r * 2 ^ 53) : ℚ) = r * 2 ^ 53 :=
      (div_eq_iff (by positivity)).mp hb
    rw [this]
    have : r * 2 ^ 53 < 1 * 2 ^ 53 := mul_lt_mul_of_pos_right h1 (by positivity)
    linarith
  have hn2 : roundHalfEven (r * 2 ^ 53) < 2 ^ 53 := by exact_mod_cast hn
  have hn3 : roundHalfEven (r * 2 ^ 53) ≤ 2 ^ 53 - 1 := by omega
  have hn4 : (roundHalfEven (r * 2 ^ 53) : ℚ) ≤ 2 ^ 53 - 1 := by exact_mod_cast hn3
  have : r ≤ (2 ^ 53 - 1) / 2 ^ 53 := by
    calc r = (roundHalfEven (r * 2 ^ 53) : ℚ) / 2 ^ 53 := hb.symm
      _ ≤ (2 ^ 53 - 1) / 2 ^ 53 := div_le_div_of_nonneg_right hn4 (by positivity)
  have h2 : ((2 : ℚ) ^ 53 - 1) / 2 ^ 53 = 1 - 1 / 2 ^ 53 := by norm_num
  linarith


theorem RandomNumber.value_nonneg (r : RandomNumber) : 0 ≤ r.value := by
  unfold RandomNumber.value
  positivity

theorem RandomNumber.value_lt_one (r : RandomNumber) : r.value < 1 := by
  unfold RandomNumber.value
  rw [div_lt_one (by positivity)]
  exact_mod_cast r.lt_one

theorem RandomNumber.value_representable (r : RandomNumber) :
    roundBinary64 r.value = r.value :=
  roundBinary64_exact r.significand r.shift r.significand_lt r.shift_le

theorem RandomNumber.value_le (r : RandomNumber) : r.value ≤ 1 - 1 / 2 ^ 53 :=
  le_of_isBinary64_lt_one r.value r.value_nonneg r.value_lt_one r.value_representable

/-! ## The multiplier -/

theorem getRandomMultiplier_bounds (r : RandomNumber) :
    1000 ≤ getRandomMultiplier r ∧ getRandomMultiplier r ≤ 2000 := by
  unfold getRandomMultiplier
  have h0 := r.value_nonneg
  have hle := r.value_le
  have hx0 : (0 : ℚ) ≤ r.value * (2000 - 1000 + 1) := by positivity
  have hx1 : r.value * (2000 - 1000 + 1) ≤ 1001 * (1 - 1 / 2 ^ 53) := by
    have : r.value * (2000 - 1000 + 1) = 1001 * r.value := by ring
    rw [this]
    exact mul_le_mul_of_nonneg_left hle (by norm_num)
  have hx2 : r.value * (2000 - 1000 + 1) < 2 ^ 53 := by
    have : (1001 : ℚ) * (1 - 1 / 2 ^ 53) < 2 ^ 53 := by norm_num
    linarith
  have hlo : (0 : ℤ) ≤ ⌊roundBinary64 (r.value * (2000 - 1000 + 1))⌋ :=
    Int.floor_nonneg.mpr (roundBinary64_nonneg _ hx0 hx2)
  have hhi : ⌊roundBinary64 (r.value * (2000 - 1000 + 1))⌋ < (1001 : ℤ) := by
    rw [Int.floor_lt]
    exact_mod_cast roundBinary64_lt_1001 _ hx0 hx1
  constructor <;> omega

theorem getRandomMultiplier_near_exact (r : RandomNumber) :
    getRandomMultiplier r = ⌊r.value * 1001⌋ + 1000 ∨
      getRandomMultiplier r = ⌊r.value * 1001⌋ + 1001 := by
  unfold getRandomMultiplier
  have h0 := r.value_nonneg
  have h1 := r.value_lt_one
  have hc : r.value * (2000 - 1000 + 1) = r.value * 1001 := by ring
  rw [hc]
  have hx0 : (0 : ℚ) ≤ r.value * 1001 := by positivity
  have hx2 : r.value * 1001 < 2 ^ 53 := by
    have : (1001 : ℚ) < 2 ^ 53 := by norm_num
    nlinarith
  have hlo : ⌊r.value * 1001⌋ ≤ ⌊roundBinary64 (r.value * 1001)⌋ :=
    Int.le_floor.mpr (le_roundBinary64 _ hx0 hx2 _ (Int.floor_le _))
  have hhi : ⌊roundBinary64 (r.value * 1001)⌋ ≤ ⌊r.value * 1001⌋ + 1 := by
    have h3 : roundBinary64 (r.value * 1001) ≤ ((⌊r.value * 1001⌋ + 1 : ℤ) : ℚ) :=
      roundBinary64_le _ hx0 hx2 _ (by
        push_cast
        exact le_of_lt (Int.lt_floor_add_one _))
    have h4 := Int.floor_le (roundBinary64 (r.value * 1001))
    have h5 : ((⌊roundBinary64 (r.value * 1001)⌋ : ℤ) : ℚ) ≤ ((⌊r.value * 1001⌋ + 1 : ℤ) : ℚ) :=
      le_trans h4 h3
    exact_mod_cast h5
  omega

theorem getRandomMultiplier_reached (k : ℕ) (hk : k ≤ 1000) :
    ∃ r : RandomNumber, getRandomMultiplier r = (k : ℤ) + 1000 := by
  have hj1 : (2 * k + 1) * 524288 / 1001 < 2 ^ 53 := by
    have : (2 * k + 1) * 524288 / 1001 < 1048576 := by omega
    have h2 : (1048576 : ℕ) < 2 ^ 53 := by norm_num
    omega
  have hj2 : (2 * k + 1) * 524288 / 1001 < 2 ^ 20 := by
    have : (2 * k + 1) * 524288 / 1001 < 1048576 := by omega
    norm_num
    exact this
  refine ⟨{ significand := (2 * k + 1) * 524288 / 1001, shift := 20,
            significand_lt := hj1, lt_one := hj2, shift_le := by norm_num }, ?_⟩
  unfold getRandomMultiplier RandomNumber.value
  simp only
  have hprod : (((2 * k + 1) * 524288 / 1001 : ℕ) : ℚ) / 2 ^ 20 * (2000 - 1000 + 1)
      = (((2 * k + 1) * 524288 / 1001 * 1001 : ℕ) : ℚ) / 2 ^ 20 := by
    push_cast
    ring
  rw [hprod, roundBinary64_exact _ 20 (by
    have : (2 * k + 1) * 524288 / 1001 * 1001 < 1048576 * 1001 := by omega
    have h2 : (1048576 * 1001 : ℕ) < 2 ^ 53 := by norm_num
    omega) (by norm_num)]
  have hfl : ⌊(((2 * k + 1) * 524288 / 1001 * 1001 : ℕ) : ℚ) / 2 ^ 20⌋ = (k : ℤ) := by
    rw [Int.floor_eq_iff]
    have h1 : k * 1048576 ≤ (2 * k + 1) * 524288 / 1001 * 1001 := by omega
    have h2 : (2 * k + 1) * 524288 / 1001 * 1001 < (k + 1) * 1048576 := by omega
    have h1q : ((k * 1048576 : ℕ) : ℚ) ≤ (((2 * k + 1) * 524288 / 1001 * 1001 : ℕ) : ℚ) := by
      exact_mod_cast h1
    have h2q : (((2 * k + 1) * 524288 / 1001 * 1001 : ℕ) : ℚ) < (((k + 1) * 1048576 : ℕ) : ℚ) := by
      exact_mod_cast h2
    have hp : (2 : ℚ) ^ 20 = 1048576 := by norm_num
    rw [hp]
    constructor
    · rw [le_div_iff₀ (by norm_num)]
      push_cast at h1q ⊢
      linarith
    · rw [div_lt_iff₀ (by norm_num)]
      push_cast at h2q ⊢
      linarith
  rw [hfl]

/-- Counterexample to claim C4. At the random value `0.022977022977022976` the
exact product with 1001 lies just below 23, so `floor(r × 1001) + 1000` is
1022, but the binary64 product is 23 and `getRandomMultiplier` returns 1023. -/
theorem getRandomMultiplier_counterexample :
    ⌊nearTwentyThree.value * 1001⌋ + 1000 = 1022 ∧
    getRandomMultiplier nearTwentyThree = 1023 := by
  have hv : nearTwentyThree.value = 25869828029351 / 2 ^ 50 := by
    simp [RandomNumber.value, nearTwentyThree]
  have hx : nearTwentyThree.value * (2000 - 1000 + 1) = 25895697857380351 / 2 ^ 50 := by
    rw [hv]
    norm_num
  constructor
  · rw [hv]
    norm_num
  · unfold getRandomMultiplier
    rw [hx]
    have hpos : (0 : ℚ) < 25895697857380351 / 2 ^ 50 := by norm_num
    have hlog : Int.log 2 ((25895697857380351 : ℚ) / 2 ^ 50) = 4 := by
      have hlo := le_log_of_zpow_le _ hpos 4 (by norm_num)
      have hhi := log_lt_of_lt_zpow _ hpos 5 (by norm_num)
      omega
    have hk : ulpExponent ((25895697857380351 : ℚ) / 2 ^ 50) = -((48 : ℕ) : ℤ) := by
      unfold ulpExponent
      rw [abs_of_pos hpos, hlog]
      norm_num
    rw [roundBinary64_eq _ 48 hk]
    have hr : roundHalfEven ((25895697857380351 : ℚ) / 2 ^ 50 * 2 ^ 48) = 6473924464345088 := by
      unfold roundHalfEven
      norm_num
    rw [hr]
    norm_num

/-- Claim C4, amended. For every value `r` with `0 ≤ r < 1` returned by the
random source, `getRandomMultiplier` returns the floor of the binary64 product
`r × 1001` plus 1000; this is `floor(r × 1001) + 1000` or one more, and it is
an integer between 1000 and 2000 inclusive. Every integer of that interval,
both endpoints included, is returned for some such `r`. -/
theorem getRandomMultiplier_amended :
    (∀ r : RandomNumber,
      (getRandomMultiplier r = ⌊r.value * 1001⌋ + 1000 ∨
        getRandomMultiplier r = ⌊r.value * 1001⌋ + 1001) ∧
      1000 ≤ getRandomMultiplier r ∧ getRandomMultiplier r ≤ 2000) ∧
    (∀ m : ℤ, 1000 ≤ m → m ≤ 2000 → ∃ r : RandomNumber, getRandomMultiplier r = m) := by
  refine ⟨fun r => ⟨getRandomMultiplier_near_exact r, getRandomMultiplier_bounds r⟩, ?_⟩
  intro m hlo hhi
  obtain ⟨r, hr⟩ := getRandomMultiplier_reached (m - 1000).toNat (by omega)
  exact ⟨r, by rw [hr]; omega⟩

theorem getRandomMultiplier_amended_witness :
    ((getRandomMultiplier randomHalf = ⌊randomHalf.value * 1001⌋ + 1000 ∨
        getRandomMultiplier randomHalf = ⌊randomHalf.value * 1001⌋ + 1001) ∧
      1000 ≤ getRandomMultiplier randomHalf ∧ getRandomMultiplier randomHalf ≤ 2000) ∧
    (∃ r : RandomNumber, getRandomMultiplier r = 1000) ∧
    (∃ r : RandomNumber, getRandomMultiplier r = 2000) :=
  ⟨getRandomMultiplier_amended.1 randomHalf,
    getRandomMultiplier_amended.2 1000 (by norm_num) (by norm_num),
    getRandomMultiplier_amended.2 2000 (by norm_num) (by norm_num)⟩

/-! ## The record transformer -/

theorem estimatedGdpOf_val (p x : ℚ) (r : RandomNumber) (hp : p ≠ 0) (hx : x ≠ 0) :
    estimatedGdpOf (.val p) (.val (.num x)) r
      = .val (.num (p * (getRandomMultiplier r : ℚ) / x)) := by
  simp [estimatedGdpOf, gdpGuard, truthyNum, truthyRate, hp, hx]

theorem estimatedGdpOf_falsy_population (population : Js ℚ) (exchangeRate : Js RateValue)
    (r : RandomNumber) (h : truthyNum population = false) :
    estimatedGdpOf population exchangeRate r = .null := by
  simp [estimatedGdpOf, gdpGuard, h]

theorem estimatedGdpOf_falsy_rate (population : Js ℚ) (exchangeRate : Js RateValue)
    (r : RandomNumber) (h : truthyRate exchangeRate = false) :
    estimatedGdpOf population exchangeRate r = .null := by
  simp [estimatedGdpOf, gdpGuard, h]

theorem exchangeRateOf_val (rates : Rates) (s : String) (hs : s ≠ "") :
    exchangeRateOf rates (.val s) = rates.get s := by
  simp [exchangeRateOf, truthyStr, hs]

theorem currencyCodeOf_cons (c : RawCountry) (cur : RawCurrency)
    (rest : List (Option RawCurrency)) (h : c.currencies = some (some cur :: rest)) :
    currencyCodeOf c = cur.code := by
  simp [currencyCodeOf, firstCurrency, h]

/-- Counterexample to claim C1. With population `0`, the key `XYZ` present at
rate `2.0`, the record has `estimated_gdp = null`, not `0`; the same happens
for a non-zero population when the rate found is `0`, and when the currency
code is the empty string and is a key of the mapping. -/
theorem countryRecord_gdp_counterexample :
    ((countryRecord { testland with population := .val 0 } testRates randomHalf).estimated_gdp
        = .null ∧ Rates.hasKey testRates "XYZ" = true) ∧
    ((countryRecord testland [("XYZ", 0)] randomHalf).estimated_gdp = .null ∧
        Rates.hasKey [("XYZ", 0)] "XYZ" = true) ∧
    ((countryRecord { testland with currencies := some [some { code := .val "" }] }
        [("", 2)] randomHalf).estimated_gdp = .null ∧ Rates.hasKey [("", 2)] "" = true) := by
  simp [countryRecord, testland, testRates, estimatedGdpOf, gdpGuard, truthyNum, truthyRate,
    exchangeRateOf, currencyCodeOf, firstCurrency, truthyStr, Rates.get, Rates.hasKey,
    List.lookup]

/-- Claim C1, amended. If the population is a non-zero number, the code of the
first listed currency is a non-empty string that is a key of the rates mapping,
and the rate found there is non-zero, then `estimated_gdp` is non-null and
equals `population × m / rate` for an integer `m` with `1000 ≤ m ≤ 2000`; the
`Testland` entry with rates `XYZ ↦ 2.0` gets a value between 500000000 and
1000000000 inclusive; and a population of `0` gives `estimated_gdp = null`.
The random value ranges over the binary64 numbers `r` with `0 ≤ r < 1`. -/
theorem countryRecord_gdp_amended :
    (∀ (c : RawCountry) (rates : Rates) (r : RandomNumber) (p x : ℚ) (s : String)
        (rest : List (Option RawCurrency)),
      c.population = .val p → p ≠ 0 →
      c.currencies = some (some { code := .val s } :: rest) → s ≠ "" →
      rates.lookup s = some x → x ≠ 0 →
      ∃ m : ℤ, 1000 ≤ m ∧ m ≤ 2000 ∧
        (countryRecord c rates r).estimated_gdp = .val (.num (p * (m : ℚ) / x))) ∧
    (∀ r : RandomNumber,
      ∃ g : ℚ, (countryRecord testland testRates r).estimated_gdp = .val (.num g) ∧
        500000000 ≤ g ∧ g ≤ 1000000000) ∧
    (∀ (c : RawCountry) (rates : Rates) (r : RandomNumber), c.population = .val 0 →
      (countryRecord c rates r).estimated_gdp = .null) := by
  refine ⟨?_, ?_, ?_⟩
  · intro c rates r p x s rest hp hp0 hcur hs hx hx0
    refine ⟨getRandomMultiplier r, (getRandomMultiplier_bounds r).1,
      (getRandomMultiplier_bounds r).2, ?_⟩
    have hcode : currencyCodeOf c = .val s := currencyCodeOf_cons c _ rest hcur
    simp only [countryRecord, hcode, hp, exchangeRateOf_val rates s hs, Rates.get, hx]
    exact estimatedGdpOf_val p x r hp0 hx0
  · intro r
    obtain ⟨hlo, hhi⟩ := getRandomMultiplier_bounds r
    refine ⟨1000000 * (getRandomMultiplier r : ℚ) / 2, ?_, ?_, ?_⟩
    · simp [countryRecord, testland, testRates, estimatedGdpOf, gdpGuard, truthyNum,
        truthyRate, exchangeRateOf, currencyCodeOf, firstCurrency, truthyStr, Rates.get,
        List.lookup]
    · have : (1000 : ℚ) ≤ (getRandomMultiplier r : ℚ) := by exact_mod_cast hlo
      linarith
    · have : (getRandomMultiplier r : ℚ) ≤ 2000 := by exact_mod_cast hhi
      linarith
  · intro c rates r hp
    simp only [countryRecord, hp]
    exact estimatedGdpOf_falsy_population _ _ r (by simp [truthyNum])

theorem countryRecord_gdp_amended_witness :
    (∃ m : ℤ, 1000 ≤ m ∧ m ≤ 2000 ∧
        (countryRecord testland testRates randomHalf).estimated_gdp
          = .val (.num (1000000 * (m : ℚ) / 2))) ∧
    (∃ g : ℚ, (countryRecord testland testRates randomZero).estimated_gdp = .val (.num g) ∧
        500000000 ≤ g ∧ g ≤ 1000000000) ∧
    (countryRecord { testland with population := .val 0 } testRates randomZero).estimated_gdp
      = .null :=
  ⟨countryRecord_gdp_amended.1 testland testRates randomHalf 1000000 2 "XYZ" []
      rfl (by norm_num) rfl (by decide)
      (by simp [testRates, List.lookup]) (by norm_num),
    countryRecord_gdp_amended.2.1 randomZero,
    countryRecord_gdp_amended.2.2 { testland with population := .val 0 } testRates
      randomZero rfl⟩

/-- Failing input of claim C2. The currency code `constructor` is not a key of
the rates mapping `XYZ ↦ 2.0`, yet the property read returns the member
inherited from `Object.prototype`, which is truthy: `exchange_rate` is that
member and `estimated_gdp` is `NaN`, not null. -/
theorem countryRecord_gdp_inherited_key :
    constructorland.population = .val 1000000 ∧
    currencyCodeOf constructorland = .val "constructor" ∧
    Rates.hasKey testRates "constructor" = false ∧
    (countryRecord constructorland testRates randomHalf).exchange_rate
      = .val (.inherited "constructor") ∧
    (countryRecord constructorland testRates randomHalf).estimated_gdp = .val .nan := by
  refine ⟨rfl, by decide, by decide, by decide, ?_⟩
  have hrate : exchangeRateOf testRates (currencyCodeOf constructorland)
      = .val (.inherited "constructor") := by decide
  show estimatedGdpOf constructorland.population
    (exchangeRateOf testRates (currencyCodeOf constructorland)) randomHalf = .val .nan
  rw [hrate]
  simp [estimatedGdpOf, gdpGuard, truthyNum, truthyRate, constructorland, testland]

theorem countryRecord_gdp_null_of_falsy (c : RawCountry) (rates : Rates) (r : RandomNumber)
    (h : c.population.isNullish = true ∨
      ∀ s : String, currencyCodeOf c = .val s →
        Rates.hasKey rates s = false ∧ s ∉ objectPrototypeKeys) :
    (countryRecord c rates r).estimated_gdp = .null := by
  simp only [countryRecord]
  rcases h with h | h
  · apply estimatedGdpOf_falsy_population
    cases hp : c.population <;> simp_all [Js.isNullish, truthyNum]
  · apply estimatedGdpOf_falsy_rate
    cases hc : currencyCodeOf c with
    | undefined => simp [exchangeRateOf, truthyStr, truthyRate]
    | null => simp [exchangeRateOf, truthyStr, truthyRate]
    | val s =>
        obtain ⟨hk, hproto⟩ := h s hc
        have hl : rates.lookup s = none := by
          simpa [Rates.hasKey] using hk
        by_cases hs : s = ""
        · simp [exchangeRateOf, truthyStr, truthyRate, hs]
        · simp [exchangeRateOf, truthyStr, truthyRate, hs, Rates.get, hl, hproto]

/-- Counterexample to claim C3. The currency code `""` is non-null and is a key
of the rates mapping, yet `exchange_rate` is `null`, not `rates[""]`. For a
code that is not a key, `exchange_rate` is not `null` either: it is
`undefined` for `XYZ` with rates `ABC ↦ 2.0`, and the inherited member for
`constructor`. -/
theorem countryRecord_rate_counterexample :
    ((countryRecord { testland with currencies := some [some { code := .val "" }] }
        [("", 2)] randomHalf).currency_code = .val "" ∧
      Rates.get [("", 2)] "" = .val (.num 2) ∧
      (countryRecord { testland with currencies := some [some { code := .val "" }] }
        [("", 2)] randomHalf).exchange_rate = .null) ∧
    (Rates.hasKey [("ABC", 2)] "XYZ" = false ∧
      (countryRecord testland [("ABC", 2)] randomHalf).exchange_rate = .undefined) ∧
    (Rates.hasKey testRates "constructor" = false ∧
      (countryRecord constructorland testRates randomHalf).exchange_rate
        = .val (.inherited "constructor")) := by
  refine ⟨⟨by decide, by decide, by decide⟩, ⟨by decide, by decide⟩, by decide, by decide⟩

/-- Claim C3, amended. `currency_code` is the code of the first listed
currency, or null when the entry lists no currency (no array, an empty array,
or a null first element); `exchange_rate` is `rates[currency_code]` when
`currency_code` is a non-empty string that is a key of the rates mapping, and
null when `currency_code` is null, undefined or empty. An entry with no
currencies array has `currency_code`, `exchange_rate` and `estimated_gdp` all
null whatever its population. -/
theorem countryRecord_currency_amended (c : RawCountry) (rates : Rates) (r : RandomNumber) :
    (∀ (cur : RawCurrency) (rest : List (Option RawCurrency)),
      c.currencies = some (some cur :: rest) →
      (countryRecord c rates r).currency_code = cur.code) ∧
    ((c.currencies = none ∨ c.currencies = some [] ∨
        ∃ rest, c.currencies = some (none :: rest)) →
      (countryRecord c rates r).currency_code = .null) ∧
    (∀ (s : String) (x : ℚ), (countryRecord c rates r).currency_code = .val s → s ≠ "" →
      rates.lookup s = some x → (countryRecord c rates r).exchange_rate = .val (.num x)) ∧
    (((countryRecord c rates r).currency_code.isNullish = true ∨
        (countryRecord c rates r).currency_code = .val "") →
      (countryRecord c rates r).exchange_rate = .null) ∧
    (c.currencies = none →
      (countryRecord c rates r).currency_code = .null ∧
      (countryRecord c rates r).exchange_rate = .null ∧
      (countryRecord c rates r).estimated_gdp = .null) := by
  refine ⟨?_, ?_, ?_, ?_, ?_⟩
  · intro cur rest h
    exact currencyCodeOf_cons c cur rest h
  · rintro (h | h | ⟨rest, h⟩) <;> simp [countryRecord, currencyCodeOf, firstCurrency, h]
  · intro s x hc hs hx
    simp only [countryRecord] at hc ⊢
    rw [hc, exchangeRateOf_val rates s hs]
    simp [Rates.get, hx]
  · intro h
    simp only [countryRecord] at h ⊢
    cases hc : currencyCodeOf c with
    | undefined => simp [exchangeRateOf, truthyStr]
    | null => simp [exchangeRateOf, truthyStr]
    | val s =>
        rw [hc] at h
        rcases h with h | h
        · simp [Js.isNullish] at h
        · have hs : s = "" := by simpa using h
          simp [exchangeRateOf, truthyStr, hs]
  · intro h
    have hc : currencyCodeOf c = .null := by simp [currencyCodeOf, firstCurrency, h]
    refine ⟨hc, ?_, ?_⟩
    · show exchangeRateOf rates (currencyCodeOf c) = .null
      rw [hc]
      simp [exchangeRateOf, truthyStr]
    · show estimatedGdpOf c.population (exchangeRateOf rates (currencyCodeOf c)) r = .null
      rw [hc]
      apply estimatedGdpOf_falsy_rate
      simp [exchangeRateOf, truthyStr, truthyRate]

theorem countryRecord_currency_amended_witness :
    (countryRecord testland testRates randomHalf).currency_code = .val "XYZ" ∧
    (countryRecord testland testRates randomHalf).exchange_rate = .val (.num 2) ∧
    (countryRecord { testland with currencies := some [some { code := .val "" }] }
      testRates randomHalf).exchange_rate = .null ∧
    (countryRecord { testland with currencies := none } testRates randomHalf).currency_code
      = .null ∧
    (countryRecord { testland with currencies := none } testRates randomHalf).exchange_rate
      = .null ∧
    (countryRecord { testland with currencies := none } testRates randomHalf).estimated_gdp
      = .null :=
  ⟨(countryRecord_currency_amended testland testRates randomHalf).1
      { code := .val "XYZ" } [] rfl,
    (countryRecord_currency_amended testland testRates randomHalf).2.2.1 "XYZ" 2
      ((countryRecord_currency_amended testland testRates randomHalf).1
        { code := .val "XYZ" } [] rfl)
      (by decide) (by simp [testRates, List.lookup]),
    (countryRecord_currency_amended
      { testland with currencies := some [some { code := .val "" }] } testRates
      randomHalf).2.2.2.1 (Or.inr rfl),
    (countryRecord_currency_amended { testland with currencies := none } testRates
      randomHalf).2.2.2.2 rfl⟩

/-! ## The store primitives -/

theorem Country.upsert_cases (db : Db) (values : UpsertValues) (ok : Bool) :
    (∃ rec, validRecord values = true ∧ toColumns values = some rec ∧ ok = true ∧
      rec.name = values.name ∧
      Country.upsert db values true ok =
        ({ persisted := db.persisted
           working := { db.working with countries := upsertRows db.working.countries rec }
           finished := db.finished
           trace := db.trace ++ [.upserted rec.name] }, .ok ())) ∨
    ((validRecord values = false ∨ (toColumns values).isSome = false ∨ ok = false) ∧
      ∃ what, Country.upsert db values true ok = (db, .error (.other what))) := by
  cases hv : validRecord values
  · exact Or.inr ⟨Or.inl rfl, "SequelizeValidationError", by simp [Country.upsert, hv]⟩
  · cases hc : toColumns values with
    | none =>
        exact Or.inr ⟨Or.inr (Or.inl rfl), "SequelizeDatabaseError",
          by simp [Country.upsert, hv, hc]⟩
    | some rec =>
        cases ok
        · exact Or.inr ⟨Or.inr (Or.inr rfl), "SequelizeDatabaseError",
            by simp [Country.upsert, hv, hc]⟩
        · refine Or.inl ⟨rec, rfl, rfl, rfl, ?_, by simp [Country.upsert, hv, hc, Db.write]⟩
          unfold toColumns at hc
          split at hc
          · simp only [Option.some.injEq] at hc
            rw [← hc]
          · cases hc

theorem mergeAttr_written {α : Type} (new old : Js α) : attrWritten new (mergeAttr new old) := by
  cases new <;> simp [attrWritten, mergeAttr]

theorem insertAttr_written {α : Type} (new : Js α) : attrWritten new (insertAttr new) := by
  cases new <;> simp [attrWritten, insertAttr]

theorem mergeRecord_written (rec row : CountryRecord) : writtenFrom rec (mergeRecord rec row) :=
  ⟨mergeAttr_written _ _, mergeAttr_written _ _, mergeAttr_written _ _, mergeAttr_written _ _,
    mergeAttr_written _ _, mergeAttr_written _ _, mergeAttr_written _ _, mergeAttr_written _ _⟩

theorem insertRecord_written (rec : CountryRecord) : writtenFrom rec (insertRecord rec) :=
  ⟨insertAttr_written _, insertAttr_written _, insertAttr_written _, insertAttr_written _,
    insertAttr_written _, insertAttr_written _, insertAttr_written _, insertAttr_written _⟩

theorem mergeRecord_name (rec row : CountryRecord) (h : row.name = rec.name) :
    (mergeRecord rec row).name = row.name := by
  show mergeAttr rec.name row.name = row.name
  rw [h]
  cases rec.name <;> rfl

theorem insertRecord_name (rec : CountryRecord) (h : rec.name.isNullish = false) :
    (insertRecord rec).name = rec.name := by
  show insertAttr rec.name = rec.name
  cases hn : rec.name <;> simp_all [Js.isNullish, insertAttr]

theorem upsertRows_names (rows : List CountryRecord) (rec : CountryRecord)
    (h : rec.name.isNullish = false) :
    ((upsertRows rows rec).map (fun row => row.name) = rows.map (fun row => row.name) ∧
      rec.name ∈ rows.map (fun row => row.name)) ∨
    ((upsertRows rows rec).map (fun row => row.name)
        = rows.map (fun row => row.name) ++ [rec.name] ∧
      rec.name ∉ rows.map (fun row => row.name)) := by
  unfold upsertRows
  split
  · rename_i hany
    left
    constructor
    · rw [List.map_map]
      apply List.map_congr_left
      intro row _
      simp only [Function.comp]
      split
      · rename_i heq
        exact mergeRecord_name rec row heq
      · rfl
    · simp only [List.any_eq_true, decide_eq_true_eq] at hany
      obtain ⟨row, hrow, heq⟩ := hany
      exact List.mem_map.mpr ⟨row, hrow, heq⟩
  · rename_i hany
    right
    constructor
    · simp [insertRecord_name rec h]
    · intro hmem
      obtain ⟨row, hrow, heq⟩ := List.mem_map.mp hmem
      apply hany
      simp only [List.any_eq_true, decide_eq_true_eq]
      exact ⟨row, hrow, heq⟩

theorem mem_upsertRows_of_ne (rows : List CountryRecord) (rec row : CountryRecord)
    (hrow : row ∈ rows) (hne : row.name ≠ rec.name) : row ∈ upsertRows rows rec := by
  unfold upsertRows
  split
  · exact List.mem_map.mpr ⟨row, hrow, by simp [hne]⟩
  · exact List.mem_append_left _ hrow

theorem name_mem_upsertRows (rows : List CountryRecord) (rec row : CountryRecord)
    (hrow : row ∈ rows) : ∃ row2 ∈ upsertRows rows rec, row2.name = row.name := by
  by_cases hne : row.name = rec.name
  · unfold upsertRows
    split
    · exact ⟨mergeRecord rec row, List.mem_map.mpr ⟨row, hrow, by simp [hne]⟩,
        mergeRecord_name rec row hne⟩
    · exact ⟨row, List.mem_append_left _ hrow, rfl⟩
  · exact ⟨row, mem_upsertRows_of_ne rows rec row hrow hne, rfl⟩

theorem mem_upsertRows_cases (rows : List CountryRecord) (rec row : CountryRecord)
    (hrow : row ∈ upsertRows rows rec) : row ∈ rows ∨ writtenFrom rec row := by
  unfold upsertRows at hrow
  split at hrow
  · obtain ⟨old, hold, heq⟩ := List.mem_map.mp hrow
    by_cases hname : old.name = rec.name
    · rw [if_pos hname] at heq
      rw [← heq]
      exact Or.inr (mergeRecord_written rec old)
    · rw [if_neg hname] at heq
      rw [← heq]
      exact Or.inl hold
  · rcases List.mem_append.mp hrow with h | h
    · exact Or.inl h
    · rw [List.mem_singleton] at h
      rw [h]
      exact Or.inr (insertRecord_written rec)

theorem rec_name_mem_upsertRows (rows : List CountryRecord) (rec : CountryRecord)
    (h : rec.name.isNullish = false) : ∃ row ∈ upsertRows rows rec, row.name = rec.name := by
  have hmem : rec.name ∈ (upsertRows rows rec).map (fun row => row.name) := by
    rcases upsertRows_names rows rec h with ⟨h1, h2⟩ | ⟨h1, -⟩
    · rw [h1]
      exact h2
    · rw [h1]
      simp
  obtain ⟨row, hrow, heq⟩ := List.mem_map.mp hmem
  exact ⟨row, hrow, heq⟩

theorem upsertRows_length (rows : List CountryRecord) (rec : CountryRecord) :
    (upsertRows rows rec).length ≤ rows.length + 1 := by
  unfold upsertRows
  split <;> simp

theorem validRecord_name (values : UpsertValues) (h : validRecord values = true) :
    values.name.isNullish = false := by
  unfold validRecord at h
  simp only [Bool.and_eq_true, Bool.not_eq_true'] at h
  exact h.1

/-! ## The loop -/

theorem processCountries_persisted (env : Env) (rs : Rates) (cs : List RawCountry) :
    ∀ (i : ℕ) (db : Db),
      (processCountries env.random env.upsertOk rs cs i db).1.persisted = db.persisted ∧
      (processCountries env.random env.upsertOk rs cs i db).1.finished = db.finished := by
  induction cs with
  | nil => intro i db; exact ⟨rfl, rfl⟩
  | cons c rest ih =>
      intro i db
      unfold processCountries
      rcases Country.upsert_cases db (countryRecord c rs (env.random i)) (env.upsertOk i) with
        ⟨rec, _, _, _, _, h⟩ | ⟨_, what, h⟩
      · rw [h]
        simp only
        exact ih _ _
      · rw [h]
        exact ⟨rfl, rfl⟩

theorem processCountries_ok_iff (env : Env) (rs : Rates) (cs : List RawCountry) :
    ∀ (i : ℕ) (db : Db),
      (processCountries env.random env.upsertOk rs cs i db).2 = .ok () ↔
        upsertsOk env.random env.upsertOk rs cs i = true := by
  induction cs with
  | nil => intro i db; simp [processCountries, upsertsOk]
  | cons c rest ih =>
      intro i db
      unfold processCountries upsertsOk
      rcases Country.upsert_cases db (countryRecord c rs (env.random i)) (env.upsertOk i) with
        ⟨rec, hv, hcol, hok, _, h⟩ | ⟨hbad, what, h⟩
      · rw [h]
        simp only
        rw [ih]
        simp [hv, hok, hcol]
      · rw [h]
        rcases hbad with hbad | hbad | hbad <;> simp [hbad]

theorem processCountries_error (env : Env) (rs : Rates) (cs : List RawCountry) :
    ∀ (i : ℕ) (db : Db) (e : Thrown),
      (processCountries env.random env.upsertOk rs cs i db).2 = .error e →
        e.isStatus503 = false := by
  induction cs with
  | nil => intro i db e h; simp [processCountries] at h
  | cons c rest ih =>
      intro i db e
      unfold processCountries
      rcases Country.upsert_cases db (countryRecord c rs (env.random i)) (env.upsertOk i) with
        ⟨rec, _, _, _, _, h⟩ | ⟨_, what, h⟩
      · rw [h]
        simp only
        exact ih _ _ e
      · rw [h]
        simp only
        intro he
        cases he
        rfl

theorem processCountries_trace (env : Env) (rs : Rates) (cs : List RawCountry) :
    ∀ (i : ℕ) (db : Db) (ev : Event),
      ev ∈ (processCountries env.random env.upsertOk rs cs i db).1.trace →
        ev ∈ db.trace ∨ ∃ n, ev = .upserted n := by
  induction cs with
  | nil => intro i db ev h; exact Or.inl h
  | cons c rest ih =>
      intro i db ev
      unfold processCountries
      rcases Country.upsert_cases db (countryRecord c rs (env.random i)) (env.upsertOk i) with
        ⟨rec, _, _, _, _, h⟩ | ⟨_, what, h⟩
      · rw [h]
        simp only
        intro hev
        rcases ih _ _ ev hev with h1 | h1
        · simp only [List.mem_append, List.mem_singleton] at h1
          rcases h1 with h1 | h1
          · exact Or.inl h1
          · exact Or.inr ⟨_, h1⟩
        · exact Or.inr h1
      · rw [h]
        exact fun hev => Or.inl hev

theorem processCountries_frame (env : Env) (rs : Rates) (cs : List RawCountry) :
    ∀ (i : ℕ) (db : Db) (row : CountryRecord), row ∈ db.working.countries →
      (row.name ∉ cs.map (fun c => c.name) →
        row ∈ (processCountries env.random env.upsertOk rs cs i db).1.working.countries) ∧
      ∃ row2 ∈ (processCountries env.random env.upsertOk rs cs i db).1.working.countries,
        row2.name = row.name := by
  induction cs with
  | nil => intro i db row hrow; exact ⟨fun _ => hrow, row, hrow, rfl⟩
  | cons c rest ih =>
      intro i db row hrow
      unfold processCountries
      rcases Country.upsert_cases db (countryRecord c rs (env.random i)) (env.upsertOk i) with
        ⟨rec, _, _, _, hname, h⟩ | ⟨_, what, h⟩
      · rw [h]
        simp only
        constructor
        · intro hnot
          simp only [List.map_cons, List.mem_cons, not_or] at hnot
          refine (ih _ _ row ?_).1 hnot.2
          refine mem_upsertRows_of_ne _ _ row hrow ?_
          rw [hname]
          exact hnot.1
        · obtain ⟨row2, hrow2, hname2⟩ := name_mem_upsertRows db.working.countries rec row hrow
          obtain ⟨row3, hrow3, hname3⟩ := (ih (i + 1)
            { persisted := db.persisted
              working := { db.working with
                countries := upsertRows db.working.countries rec }
              finished := db.finished
              trace := db.trace ++ [.upserted rec.name] }
            row2 hrow2).2
          exact ⟨row3, hrow3, hname3.trans hname2⟩
      · rw [h]
        exact ⟨fun _ => hrow, row, hrow, rfl⟩

theorem processCountries_rows (env : Env) (rs : Rates) (cs : List RawCountry) :
    ∀ (i : ℕ) (db : Db) (row : CountryRecord),
      row ∈ (processCountries env.random env.upsertOk rs cs i db).1.working.countries →
      row ∈ db.working.countries ∨
        ∃ (j : ℕ) (c : RawCountry) (rec : CountryRecord), cs.get? j = some c ∧
          toColumns (countryRecord c rs (env.random (i + j))) = some rec ∧
          row.name = c.name ∧ writtenFrom rec row := by
  induction cs with
  | nil => intro i db row hrow; exact Or.inl hrow
  | cons c rest ih =>
      intro i db row
      unfold processCountries
      rcases Country.upsert_cases db (countryRecord c rs (env.random i)) (env.upsertOk i) with
        ⟨rec, hv, hcol, _, hname, h⟩ | ⟨_, what, h⟩
      · rw [h]
        simp only
        intro hrow
        rcases ih _ _ row hrow with h1 | ⟨j, c2, rec2, hget, hcol2, hn2, hw2⟩
        · rcases mem_upsertRows_cases _ _ _ h1 with h2 | h2
          · exact Or.inl h2
          · refine Or.inr ⟨0, c, rec, rfl, hcol, ?_, h2⟩
            have hnn := validRecord_name _ hv
            rcases h2.1 with h3 | h3
            · rw [hname] at h3
              have hcn : (countryRecord c rs (env.random i)).name = .undefined := h3
              rw [hcn] at hnn
              simp [Js.isNullish] at hnn
            · rw [h3, hname]
              rfl
        · refine Or.inr ⟨j + 1, c2, rec2, hget, ?_, hn2, hw2⟩
          have : i + (j + 1) = i + 1 + j := by omega
          rw [this]
          exact hcol2
      · rw [h]
        exact fun hrow => Or.inl hrow

theorem processCountries_length (env : Env) (rs : Rates) (cs : List RawCountry) :
    ∀ (i : ℕ) (db : Db),
      (processCountries env.random env.upsertOk rs cs i db).1.working.countries.length ≤
        db.working.countries.length + cs.length := by
  induction cs with
  | nil => intro i db; simp [processCountries]
  | cons c rest ih =>
      intro i db
      unfold processCountries
      rcases Country.upsert_cases db (countryRecord c rs (env.random i)) (env.upsertOk i) with
        ⟨rec, _, _, _, _, h⟩ | ⟨_, what, h⟩
      · rw [h]
        simp only
        have h1 := ih (i + 1)
          { persisted := db.persisted
            working := { db.working with countries := upsertRows db.working.countries rec }
            finished := db.finished
            trace := db.trace ++ [.upserted rec.name] }
        have h2 := upsertRows_length db.working.countries rec
        simp only [List.length_cons] at h1 ⊢
        omega
      · rw [h]
        simp

theorem processCountries_nodup (env : Env) (rs : Rates) (cs : List RawCountry) :
    ∀ (i : ℕ) (db : Db), (db.working.countries.map (fun row => row.name)).Nodup →
      ((processCountries env.random env.upsertOk rs cs i db).1.working.countries.map
        (fun row => row.name)).Nodup := by
  induction cs with
  | nil => intro i db h; exact h
  | cons c rest ih =>
      intro i db hnd
      unfold processCountries
      rcases Country.upsert_cases db (countryRecord c rs (env.random i)) (env.upsertOk i) with
        ⟨rec, hv, _, _, hname, h⟩ | ⟨_, what, h⟩
      · rw [h]
        simp only
        apply ih
        have hnn : rec.name.isNullish = false := by
          rw [hname]
          exact validRecord_name _ hv
        rcases upsertRows_names db.working.countries rec hnn with ⟨h1, -⟩ | ⟨h1, h2⟩
        · rw [h1]
          exact hnd
        · rw [h1]
          exact List.Nodup.append hnd (List.nodup_singleton _)
            (by
              intro a ha hb
              rw [List.mem_singleton] at hb
              rw [hb] at ha
              exact h2 ha)
      · rw [h]
        exact hnd

theorem processCountries_present (env : Env) (rs : Rates) (cs : List RawCountry) :
    ∀ (i : ℕ) (db : Db),
      (processCountries env.random env.upsertOk rs cs i db).2 = .ok () →
      ∀ c ∈ cs, ∃ row ∈ (processCountries env.random env.upsertOk rs cs i db).1.working.countries,
        row.name = c.name := by
  induction cs with
  | nil => intro i db _ c hc; cases hc
  | cons c rest ih =>
      intro i db
      unfold processCountries
      rcases Country.upsert_cases db (countryRecord c rs (env.random i)) (env.upsertOk i) with
        ⟨rec, hv, _, _, hname, h⟩ | ⟨_, what, h⟩
      · rw [h]
        simp only
        intro hok c2 hc2
        rcases List.mem_cons.mp hc2 with heq | hmem
        · have hnn : rec.name.isNullish = false := by
            rw [hname]
            exact validRecord_name _ hv
          obtain ⟨row, hrow, hrn⟩ := rec_name_mem_upsertRows db.working.countries rec hnn
          obtain ⟨row3, hrow3, hname3⟩ := (processCountries_frame env rs rest (i + 1)
            { persisted := db.persisted
              working := { db.working with countries := upsertRows db.working.countries rec }
              finished := db.finished
              trace := db.trace ++ [.upserted rec.name] }
            row hrow).2
          refine ⟨row3, hrow3, ?_⟩
          rw [hname3, hrn, hname, heq]
          rfl
        · exact ih _ _ hok c2 hmem
      · rw [h]
        simp

/-! ## The `try` block -/

theorem fetchAll_ok (env : Env) (cs : List RawCountry) (rs : Rates)
    (hc : env.countriesFetch = some cs) (hr : env.ratesFetch = some rs) :
    fetchAll env = .ok (cs, rs) := by
  simp [fetchAll, hc, hr]

theorem fetchAll_failed (env : Env)
    (h : env.countriesFetch = none ∨ env.ratesFetch = none) :
    ∃ url, failedRequestUrl env = some url ∧ fetchAll env = .error (fetchError url) := by
  cases hc : env.countriesFetch <;> cases hr : env.ratesFetch <;>
    simp_all [fetchAll, failedRequestUrl]

theorem refreshTry_fetch_failed (db : Db) (env : Env)
    (h : env.countriesFetch = none ∨ env.ratesFetch = none) :
    ∃ url, failedRequestUrl env = some url ∧
      refreshTry db env = (db, .error (fetchError url)) ∧ commitAttempted env = false := by
  obtain ⟨url, hurl, hf⟩ := fetchAll_failed env h
  refine ⟨url, hurl, by simp [refreshTry, hf], ?_⟩
  unfold commitAttempted
  rcases h with h | h <;> simp [h]

theorem refreshTry_failed (db : Db) (env : Env) (cs : List RawCountry) (rs : Rates)
    (hc : env.countriesFetch = some cs) (hr : env.ratesFetch = some rs)
    (hbad : pipelineOk env = false) :
    ∃ db2 e, refreshTry db env = (db2, .error e) ∧ db2.persisted = db.persisted ∧
      db2.finished = (db.finished || commitAttempted env) ∧ e.isStatus503 = false ∧
      ∀ ev ∈ db2.trace, ev ∈ db.trace ∨ ev = .fetched ∨ (∃ n, ev = .upserted n) ∨
        ev = .metadataUpdated := by
  have hf := fetchAll_ok env cs rs hc hr
  simp only [pipelineOk, hc, hr] at hbad
  have hca : commitAttempted env
      = (upsertsOk env.random env.upsertOk rs cs 0 && env.metadataOk) := by
    simp only [commitAttempted, hc, hr]
  have hpers := processCountries_persisted env rs cs 0 { db with trace := db.trace ++ [.fetched] }
  have hiff := processCountries_ok_iff env rs cs 0 { db with trace := db.trace ++ [.fetched] }
  have herr := processCountries_error env rs cs 0 { db with trace := db.trace ++ [.fetched] }
  have htr := processCountries_trace env rs cs 0 { db with trace := db.trace ++ [.fetched] }
  simp only [refreshTry, hf]
  generalize processCountries env.random env.upsertOk rs cs 0 { db with trace := db.trace ++ [.fetched] } = pr
    at hpers hiff herr htr
  obtain ⟨db2, r⟩ := pr
  have htr2 : ∀ ev ∈ db2.trace, ev ∈ db.trace ∨ ev = .fetched ∨ (∃ n, ev = .upserted n) ∨
      ev = .metadataUpdated := by
    intro ev hev
    rcases htr ev hev with h1 | h1
    · simp only [List.mem_append, List.mem_singleton] at h1
      rcases h1 with h1 | h1
      · exact Or.inl h1
      · exact Or.inr (Or.inl h1)
    · exact Or.inr (Or.inr (Or.inl h1))
  cases r with
  | error e =>
      have hups : upsertsOk env.random env.upsertOk rs cs 0 = false := by
        cases hu : upsertsOk env.random env.upsertOk rs cs 0 with
        | false => rfl
        | true =>
            have := hiff.mpr hu
            simp at this
      refine ⟨db2, e, rfl, hpers.1, ?_, herr e rfl, htr2⟩
      rw [hca, hups]
      simpa using hpers.2
  | ok u =>
      have hups : upsertsOk env.random env.upsertOk rs cs 0 = true := hiff.mp rfl
      cases hm : env.metadataOk with
      | false =>
          refine ⟨db2, .other "SequelizeDatabaseError", by simp [Metadata.update, hm],
            hpers.1, ?_, rfl, htr2⟩
          rw [hca, hups, hm]
          simpa using hpers.2
      | true =>
          cases hk : env.commitOk with
          | true => simp [hups, hm, hk] at hbad
          | false =>
              refine ⟨{ persisted := db2.persisted
                        working := setLastRefreshed env.now db2.working
                        finished := true
                        trace := db2.trace ++ [.metadataUpdated] },
                .other "SequelizeDatabaseError",
                by simp [Metadata.update, Db.commit, Db.write, hm, hk], hpers.1, ?_, rfl, ?_⟩
              · rw [hca, hups, hm]
                simp
              intro ev hev
              simp only [List.mem_append, List.mem_singleton] at hev
              rcases hev with hev | hev
              · exact htr2 ev hev
              · exact Or.inr (Or.inr (Or.inr hev))

theorem refreshTry_succeeded (db : Db) (env : Env) (cs : List RawCountry) (rs : Rates)
    (hc : env.countriesFetch = some cs) (hr : env.ratesFetch = some rs)
    (hgood : pipelineOk env = true) :
    refreshTry db env = (committedDb db env cs rs,
      .ok (successResponse cs.length,
        generateSummaryImage (committedDb db env cs rs).persisted env.render)) := by
  have hf := fetchAll_ok env cs rs hc hr
  simp only [pipelineOk, hc, hr, Bool.and_eq_true] at hgood
  obtain ⟨⟨hups, hm⟩, hk⟩ := hgood
  have hiff := processCountries_ok_iff env rs cs 0 { db with trace := db.trace ++ [.fetched] }
  simp only [refreshTry, hf, committedDb]
  generalize processCountries env.random env.upsertOk rs cs 0 { db with trace := db.trace ++ [.fetched] } = pr
    at hiff
  obtain ⟨db2, r⟩ := pr
  have hr2 : r = .ok () := hiff.mpr hups
  subst hr2
  simp [Metadata.update, Db.commit, Db.write, hm, hk]

/-! ## The handler as a whole -/

theorem refreshCatch_store (db : Db) (env : Env) (e : Thrown) :
    (refreshCatch db env e).store = db.persisted ∧ (refreshCatch db env e).image = none := by
  unfold refreshCatch
  cases db.finished <;> cases env.rollbackOk <;> cases e.isStatus503 <;> simp [Db.rollback]

theorem refreshCatch_response (db : Db) (env : Env) (e : Thrown) :
    (refreshCatch db env e).response =
      if db.finished || !env.rollbackOk then none
      else some (if e.isStatus503 then unavailableResponse e.message
        else internalErrorResponse) := by
  unfold refreshCatch
  cases db.finished <;> cases env.rollbackOk <;> cases e.isStatus503 <;> simp

theorem refreshCatch_trace (db : Db) (env : Env) (e : Thrown) (ev : Event)
    (hev : ev ∈ (refreshCatch db env e).trace) :
    ev ∈ db.trace ∨ ev = .rolledBack ∨ ev = .responded 503 ∨ ev = .responded 500 := by
  unfold refreshCatch at hev
  cases hf : db.finished <;> cases hr : env.rollbackOk <;> cases hs : e.isStatus503 <;>
    simp [hf, hr, hs, Db.rollback] at hev <;> tauto

theorem refreshCountries_not_opened (store : Store) (env : Env)
    (hopen : env.transactionOk = false) :
    refreshCountries store env =
      { store := store, response := none, image := none, trace := [] } := by
  simp [refreshCountries, hopen]

theorem refreshCountries_ok (store : Store) (env : Env) (cs : List RawCountry) (rs : Rates)
    (hopen : env.transactionOk = true)
    (hc : env.countriesFetch = some cs) (hr : env.ratesFetch = some rs)
    (hgood : pipelineOk env = true) :
    refreshCountries store env =
      { store := (committedDb (openedDb store) env cs rs).persisted
        response := some (successResponse cs.length)
        image := some (generateSummaryImage
          (committedDb (openedDb store) env cs rs).persisted env.render)
        trace := (committedDb (openedDb store) env cs rs).trace } := by
  simp [refreshCountries, hopen, refreshTry_succeeded (openedDb store) env cs rs hc hr hgood]

theorem refreshCountries_failed (store : Store) (env : Env)
    (hopen : env.transactionOk = true) (hbad : pipelineOk env = false) :
    ∃ db e, refreshCountries store env = refreshCatch db env e ∧ db.persisted = store ∧
      db.finished = commitAttempted env ∧
      (∀ ev ∈ db.trace, ev = .transactionOpened ∨ ev = .fetched ∨ (∃ n, ev = .upserted n) ∨
        ev = .metadataUpdated) ∧
      ((env.countriesFetch = none ∨ env.ratesFetch = none) →
        ∃ url, failedRequestUrl env = some url ∧ e = fetchError url) ∧
      ((∃ cs rs, env.countriesFetch = some cs ∧ env.ratesFetch = some rs) →
        e.isStatus503 = false) := by
  cases hc : env.countriesFetch with
  | none =>
      obtain ⟨url, hurl, ht, hca⟩ := refreshTry_fetch_failed (openedDb store) env (Or.inl hc)
      refine ⟨openedDb store, fetchError url, by simp [refreshCountries, hopen, ht], rfl,
        by rw [hca]; rfl, ?_, fun _ => ⟨url, hurl, rfl⟩, ?_⟩
      · intro ev hev
        simp only [openedDb, List.mem_singleton] at hev
        exact Or.inl hev
      · rintro ⟨cs, rs, h1, _⟩
        simp at h1
  | some cs =>
      cases hr : env.ratesFetch with
      | none =>
          obtain ⟨url, hurl, ht, hca⟩ :=
            refreshTry_fetch_failed (openedDb store) env (Or.inr hr)
          refine ⟨openedDb store, fetchError url, by simp [refreshCountries, hopen, ht], rfl,
            by rw [hca]; rfl, ?_, fun _ => ⟨url, hurl, rfl⟩, ?_⟩
          · intro ev hev
            simp only [openedDb, List.mem_singleton] at hev
            exact Or.inl hev
          · rintro ⟨cs2, rs, _, h2⟩
            simp at h2
      | some rs =>
          obtain ⟨db2, e, ht, hp, hfin, he, htr⟩ :=
            refreshTry_failed (openedDb store) env cs rs hc hr hbad
          refine ⟨db2, e, by simp [refreshCountries, hopen, ht], hp,
            by rw [hfin]; simp [openedDb], ?_, ?_, fun _ => he⟩
          · intro ev hev
            rcases htr ev hev with h1 | h1
            · simp only [openedDb, List.mem_singleton] at h1
              exact Or.inl h1
            · exact Or.inr h1
          · rintro (h | h) <;> simp at h

theorem pipelineOk_fetched (env : Env) (hgood : pipelineOk env = true) :
    ∃ cs rs, env.countriesFetch = some cs ∧ env.ratesFetch = some rs := by
  unfold pipelineOk at hgood
  cases hc : env.countriesFetch with
  | none => simp [hc] at hgood
  | some cs =>
      cases hr : env.ratesFetch with
      | none => simp [hc, hr] at hgood
      | some rs => exact ⟨cs, rs, rfl, rfl⟩

theorem refreshCountries_succeeded_iff (store : Store) (env : Env) :
    (refreshCountries store env).succeeded = true ↔
      env.transactionOk = true ∧ pipelineOk env = true := by
  cases hopen : env.transactionOk with
  | false => simp [refreshCountries_not_opened store env hopen, RunResult.succeeded]
  | true =>
      cases hgood : pipelineOk env with
      | false =>
          obtain ⟨db, e, hrun, -, -, -, -, -⟩ := refreshCountries_failed store env hopen hgood
          simp only [hrun, RunResult.succeeded, refreshCatch_response]
          cases db.finished <;> cases env.rollbackOk <;> cases e.isStatus503 <;>
            simp [unavailableResponse, internalErrorResponse]
      | true =>
          have hgood2 := hgood
          unfold pipelineOk at hgood2
          cases hc : env.countriesFetch with
          | none => simp [hc] at hgood2
          | some cs =>
              cases hr : env.ratesFetch with
              | none => simp [hc, hr] at hgood2
              | some rs =>
                  simp [refreshCountries_ok store env cs rs hopen hc hr hgood,
                    RunResult.succeeded, successResponse]

theorem fetchError_restCountries :
    fetchError restCountriesUrl = .custom 503 "Could not fetch data from RestCountries" := by
  decide

theorem fetchError_exchangeRate :
    fetchError exchangeRateUrl = .custom 503 "Could not fetch data from ExchangeRate-API" := by
  decide

/-! ## Atomicity, retained rows, responses -/

/-- Claim C5. For every prior persisted state and every run that fails at some
step (the transaction cannot be opened, an upstream fetch fails, an upsert
fails, the metadata update fails, or the commit fails), the persisted state
after the run equals the state before it, also when earlier upserts of the
batch had succeeded. -/
theorem refreshCountries_failure_keeps_store (store : Store) (env : Env)
    (hfail : env.transactionOk = false ∨ pipelineOk env = false) :
    (refreshCountries store env).store = store := by
  cases hopen : env.transactionOk with
  | false => rw [refreshCountries_not_opened store env hopen]
  | true =>
      rcases hfail with h | h
      · rw [hopen] at h
        cases h
      · obtain ⟨db, e, hrun, hp, -⟩ := refreshCountries_failed store env hopen h
        rw [hrun, (refreshCatch_store db env e).1, hp]

theorem refreshCountries_failure_keeps_store_witness :
    pipelineOk secondUpsertFails = false ∧
    upsertsOk secondUpsertFails.random secondUpsertFails.upsertOk testRates [testland] 0
      = true ∧
    (refreshCountries sampleStore secondUpsertFails).store = sampleStore :=
  ⟨by decide, by decide,
    refreshCountries_failure_keeps_store sampleStore secondUpsertFails (Or.inr (by decide))⟩

/-- Claim C6. For every prior persisted set of rows and every successful run:
each stored row whose name is not the name of a fetched entry is still present
afterwards, unchanged, and every stored name is still the name of a row. Every
row present afterwards is either a row stored before or a row keyed by the name
of a fetched entry and holding the attributes written for that entry; every
fetched name is the name of a row; no more rows are added than entries were
fetched; and names stay unique when they were. The refresh only inserts or
overwrites rows keyed by the fetched names and deletes none. -/
theorem refreshCountries_success_keeps_rows (store : Store) (env : Env)
    (cs : List RawCountry) (rs : Rates)
    (hc : env.countriesFetch = some cs) (hr : env.ratesFetch = some rs)
    (hs : (refreshCountries store env).succeeded = true) :
    (∀ row ∈ store.countries,
      (row.name ∉ cs.map (fun c => c.name) →
        row ∈ (refreshCountries store env).store.countries) ∧
      ∃ row2 ∈ (refreshCountries store env).store.countries, row2.name = row.name) ∧
    (∀ row ∈ (refreshCountries store env).store.countries,
      row ∈ store.countries ∨
        ∃ (j : ℕ) (c : RawCountry) (rec : CountryRecord), cs.get? j = some c ∧
          toColumns (countryRecord c rs (env.random j)) = some rec ∧
          row.name = c.name ∧ writtenFrom rec row) ∧
    (∀ c ∈ cs, ∃ row ∈ (refreshCountries store env).store.countries, row.name = c.name) ∧
    (refreshCountries store env).store.countries.length ≤ store.countries.length + cs.length ∧
    ((store.countries.map (fun row => row.name)).Nodup →
      ((refreshCountries store env).store.countries.map (fun row => row.name)).Nodup) := by
  obtain ⟨hopen, hgood⟩ := (refreshCountries_succeeded_iff store env).mp hs
  have hups : upsertsOk env.random env.upsertOk rs cs 0 = true := by
    have h := hgood
    simp only [pipelineOk, hc, hr, Bool.and_eq_true] at h
    exact h.1.1
  rw [refreshCountries_ok store env cs rs hopen hc hr hgood]
  refine ⟨?_, ?_, ?_, ?_, ?_⟩
  · intro row hrow
    exact processCountries_frame env rs cs 0
      { openedDb store with trace := (openedDb store).trace ++ [.fetched] } row hrow
  · intro row hrow
    rcases processCountries_rows env rs cs 0
      { openedDb store with trace := (openedDb store).trace ++ [.fetched] } row hrow with
      h | ⟨j, c, rec, hget, hcol, hname, hw⟩
    · exact Or.inl h
    · refine Or.inr ⟨j, c, rec, hget, ?_, hname, hw⟩
      rw [Nat.zero_add] at hcol
      exact hcol
  · exact processCountries_present env rs cs 0
      { openedDb store with trace := (openedDb store).trace ++ [.fetched] }
      ((processCountries_ok_iff env rs cs 0 _).mpr hups)
  · exact processCountries_length env rs cs 0
      { openedDb store with trace := (openedDb store).trace ++ [.fetched] }
  · exact processCountries_nodup env rs cs 0
      { openedDb store with trace := (openedDb store).trace ++ [.fetched] }

theorem refreshCountries_success_keeps_rows_witness :
    (refreshCountries sampleStore okEnv).succeeded = true ∧
    oldRecord ∈ (refreshCountries sampleStore okEnv).store.countries ∧
    (∃ row ∈ (refreshCountries sampleStore okEnv).store.countries,
      row.name = testland.name) ∧
    (refreshCountries sampleStore okEnv).store.countries.length
      ≤ sampleStore.countries.length + 2 :=
  ⟨(refreshCountries_succeeded_iff sampleStore okEnv).mpr ⟨rfl, by decide⟩,
    ((refreshCountries_success_keeps_rows sampleStore okEnv [testland, otherland] testRates
      rfl rfl ((refreshCountries_succeeded_iff sampleStore okEnv).mpr ⟨rfl, by decide⟩)
      ).1 oldRecord (by simp [sampleStore])).1 (by decide),
    (refreshCountries_success_keeps_rows sampleStore okEnv [testland, otherland] testRates
      rfl rfl ((refreshCountries_succeeded_iff sampleStore okEnv).mpr ⟨rfl, by decide⟩)
      ).2.2.1 testland (by simp),
    (refreshCountries_success_keeps_rows sampleStore okEnv [testland, otherland] testRates
      rfl rfl ((refreshCountries_succeeded_iff sampleStore okEnv).mpr ⟨rfl, by decide⟩)
      ).2.2.2.1⟩

/-- Failing inputs of claim C7. A run in which every statement succeeds except
the commit finishes the transaction, so the unguarded `t.rollback()` of the
`catch` block throws and no response is sent, where the claim has status 500;
the same happens when an upsert is rejected and the rollback is rejected too,
and when the transaction cannot be opened. -/
theorem refreshCountries_no_response :
    (pipelineOk commitFails = false ∧ commitAttempted commitFails = true ∧
      commitFails.rollbackOk = true ∧
      (refreshCountries sampleStore commitFails).response = none) ∧
    (pipelineOk rollbackFails = false ∧
      (refreshCountries sampleStore rollbackFails).response = none) ∧
    (refreshCountries sampleStore transactionFails).response = none := by
  have hcommit : commitAttempted commitFails = true := by decide
  refine ⟨⟨by decide, hcommit, rfl, ?_⟩, ⟨by decide, ?_⟩, ?_⟩
  · obtain ⟨db, e, hrun, -, hfin, -⟩ :=
      refreshCountries_failed sampleStore commitFails rfl (by decide)
    rw [hrun, refreshCatch_response, hfin, hcommit]
    rfl
  · obtain ⟨db, e, hrun, -⟩ :=
      refreshCountries_failed sampleStore rollbackFails rfl (by decide)
    rw [hrun, refreshCatch_response]
    have : rollbackFails.rollbackOk = false := rfl
    rw [this]
    simp
  · simp [refreshCountries, transactionFails, okEnv]

/-- What the handler does answer: no run yields 200 after a failure and no
upstream failure yields 500; when the transaction is opened and every step
succeeds the response is 200 with `countries_processed` the number of fetched
entries; when the transaction is opened, no commit was attempted and the
rollback completes, a failed upstream request gives 503 naming the source and
a failed upsert or metadata update gives 500. -/
theorem refreshCountries_response_classified (store : Store) (env : Env) :
    (∀ resp, (refreshCountries store env).response = some resp → resp.status = 200 →
      env.transactionOk = true ∧ pipelineOk env = true) ∧
    ((env.countriesFetch = none ∨ env.ratesFetch = none) →
      ∀ resp, (refreshCountries store env).response = some resp → resp.status ≠ 500) ∧
    (env.transactionOk = false → (refreshCountries store env).response = none) ∧
    (env.transactionOk = true → pipelineOk env = true →
      ∃ cs, env.countriesFetch = some cs ∧
        (refreshCountries store env).response = some (successResponse cs.length)) ∧
    (env.transactionOk = true → env.rollbackOk = true →
      (env.countriesFetch = none ∨ env.ratesFetch = none) →
      ∃ url, failedRequestUrl env = some url ∧
        (refreshCountries store env).response = some (unavailableResponse
          ("Could not fetch data from " ++
            if includes url "restcountries" then "RestCountries" else "ExchangeRate-API"))) ∧
    (env.transactionOk = true → env.rollbackOk = true →
      (∃ cs rs, env.countriesFetch = some cs ∧ env.ratesFetch = some rs) →
      pipelineOk env = false → commitAttempted env = false →
      (refreshCountries store env).response = some internalErrorResponse) := by
  refine ⟨?_, ?_, ?_, ?_, ?_, ?_⟩
  · intro resp hresp hstatus
    apply (refreshCountries_succeeded_iff store env).mp
    simp [RunResult.succeeded, hresp, hstatus]
  · intro hdown resp hresp
    cases hopen : env.transactionOk with
    | false => simp [refreshCountries_not_opened store env hopen] at hresp
    | true =>
        have hbad : pipelineOk env = false := by
          unfold pipelineOk
          rcases hdown with h | h <;> simp [h]
        obtain ⟨db, e, hrun, -, -, -, hurl, -⟩ :=
          refreshCountries_failed store env hopen hbad
        obtain ⟨url, -, he⟩ := hurl hdown
        rw [hrun, refreshCatch_response, he] at hresp
        cases hfin : db.finished <;> cases hroll : env.rollbackOk <;>
          simp [hfin, hroll, fetchError, Thrown.isStatus503] at hresp
        rw [← hresp]
        simp [unavailableResponse]
  · intro hopen
    rw [refreshCountries_not_opened store env hopen]
  · intro hopen hgood
    obtain ⟨cs, rs, hc, hr⟩ := pipelineOk_fetched env hgood
    exact ⟨cs, hc, by rw [refreshCountries_ok store env cs rs hopen hc hr hgood]⟩
  · intro hopen hroll hdown
    have hbad : pipelineOk env = false := by
      unfold pipelineOk
      rcases hdown with h | h <;> simp [h]
    have hca : commitAttempted env = false := by
      unfold commitAttempted
      rcases hdown with h | h <;> simp [h]
    obtain ⟨db, e, hrun, -, hfin, -, hurl, -⟩ := refreshCountries_failed store env hopen hbad
    obtain ⟨url, hurl2, he⟩ := hurl hdown
    refine ⟨url, hurl2, ?_⟩
    rw [hrun, refreshCatch_response, he, hfin, hca]
    simp [hroll, fetchError, Thrown.isStatus503, Thrown.message]
  · intro hopen hroll hfetched hbad hca
    obtain ⟨db, e, hrun, -, hfin, -, -, he⟩ := refreshCountries_failed store env hopen hbad
    rw [hrun, refreshCatch_response, hfin, hca]
    simp [hroll, he hfetched]

/-! ## The summary renderer -/

theorem generateSummaryImage_ok (store : Store) (renv : RenderEnv) :
    ∃ res, generateSummaryImage store renv = .ok res := by
  unfold generateSummaryImage
  cases summaryTry store renv <;> exact ⟨_, rfl⟩

theorem summaryTry_failed (store : Store) (renv : RenderEnv)
    (h : (renv.countOk && renv.findAllOk && renv.findByPkOk && renv.bufferOk &&
      renv.mkdirOk && renv.toFileOk) = false) :
    ∃ e, summaryTry store renv = .error e := by
  unfold summaryTry
  cases h1 : renv.countOk <;> cases h2 : renv.findAllOk <;> cases h3 : renv.findByPkOk <;>
    cases h4 : renv.bufferOk <;> cases h5 : renv.mkdirOk <;> cases h6 : renv.toFileOk <;>
    simp_all

theorem summaryTry_ok (store : Store) (renv : RenderEnv) (svg : SummarySvg)
    (h : summaryTry store renv = .ok svg) :
    svg = buildSvg store.countries.length (findTop5 store) (lastRefreshedOf store.metadata) := by
  unfold summaryTry at h
  cases h1 : renv.countOk <;> cases h2 : renv.findAllOk <;> cases h3 : renv.findByPkOk <;>
    cases h4 : renv.bufferOk <;> cases h5 : renv.mkdirOk <;> cases h6 : renv.toFileOk <;>
    simp_all

theorem generateSummaryImage_written (store : Store) (renv : RenderEnv) (res : RenderResult)
    (svg : SummarySvg) (h : generateSummaryImage store renv = .ok res)
    (hw : res.written = some svg) :
    svg = buildSvg store.countries.length (findTop5 store) (lastRefreshedOf store.metadata) := by
  unfold generateSummaryImage at h
  cases ht : summaryTry store renv with
  | error e =>
      rw [ht] at h
      simp only [Except.ok.injEq] at h
      rw [← h] at hw
      simp at hw
  | ok svg2 =>
      rw [ht] at h
      simp only [Except.ok.injEq] at h
      rw [← h] at hw
      simp only [Option.some.injEq] at hw
      rw [← hw]
      exact summaryTry_ok store renv svg2 ht

theorem toUTCString_ne_na (t : ℤ) : toUTCString t ≠ "N/A" := by
  intro h
  have hlen := congrArg String.length h
  unfold toUTCString at hlen
  split at hlen
  · revert hlen
    decide
  · simp only [String.length_append] at hlen
    have h4 : (" GMT" : String).length = 4 := by decide
    have h3 : ("N/A" : String).length = 3 := by decide
    omega

theorem lastRefreshedLine_ne_na (text : String) (htext : text ≠ "N/A") :
    "Last Refreshed: " ++ text ≠ "Last Refreshed: N/A" := by
  intro h
  apply htext
  have hd := congrArg String.data h
  rw [String.data_append] at hd
  have hd2 : ("Last Refreshed: N/A" : String).data
      = ("Last Refreshed: " : String).data ++ ("N/A" : String).data := by decide
  rw [hd2] at hd
  exact String.ext (List.append_cancel_left hd)

/-- Failing input of claim C8. A stored `estimated_gdp` is read back as the
string of a `DECIMAL(20, 2)` value, and `formatNumber` returns that string as
it is: for the stored value 1234567.89 the rendered line shows `$1234567.89`,
not `$1,234,568`, although a number 1234567.89 is formatted as `1,234,568` and
a missing value as `N/A`. -/
theorem formatNumber_stored_gdp :
    formatNumber (.num (123456789 / 100)) = "1,234,568" ∧
    formatNumber .null = "N/A" ∧ formatNumber .undefined = "N/A" ∧
    (loadCountry oldRecord).estimated_gdp = .str "1234567.89" ∧
    formatNumber (loadCountry oldRecord).estimated_gdp = "1234567.89" ∧
    (∃ res svg, generateSummaryImage sampleStore renderOk = .ok res ∧
      res.written = some svg ∧ svg.countryLines = [("1. Oldland", "$1234567.89")]) := by
  have h1 : roundHalfAway (123456789 / 100) = 1234568 := by norm_num [roundHalfAway]
  have h2 : roundHalfAway (123456789 / 100 * 10 ^ 2) = 123456789 := by
    norm_num [roundHalfAway]
  have h3 : decimalString 2 (123456789 / 100) = "1234567.89" := by
    simp only [decimalString, h2]
    decide
  have h4 : (loadCountry oldRecord).estimated_gdp = .str "1234567.89" := by
    simp only [loadCountry, oldRecord, readDecimal, h3]
  refine ⟨?_, rfl, rfl, h4, by rw [h4]; rfl, ?_⟩
  · simp only [formatNumber, numberToLocaleString, h1]
    have : ¬ ((123456789 / 100 : ℚ) < 0) := by norm_num
    simp only [this, if_false]
    decide
  · refine ⟨_, _, rfl, rfl, ?_⟩
    have h5 : findTop5 sampleStore = [loadCountry oldRecord] := by
      simp [findTop5, sampleStore, List.insertionSort, List.orderedInsert]
    simp only [buildSvg, h5, List.enum, List.enumFrom, List.map, h4, formatNumber]
    decide

/-- Counterexample to claim C9. With the metadata row present and its
`last_refreshed_at` null, the last-refreshed line shows the epoch, not `N/A`. -/
theorem generateSummaryImage_lastRefreshed_counterexample :
    freshStore.metadata = some { last_refreshed_at := none } ∧
    ∃ res svg, generateSummaryImage freshStore renderOk = .ok res ∧
      res.written = some svg ∧
      svg.lastRefreshedLine = "Last Refreshed: Thu, 01 Jan 1970 00:00:00 GMT" :=
  ⟨rfl, _, _, rfl, rfl, by decide⟩

/-- Claim C9, amended. In the document written by `generateSummaryImage`, the
last-refreshed line shows `N/A` when the metadata row is missing and only
then; when the row holds a timestamp, the line shows that timestamp as a UTC
date string. -/
theorem generateSummaryImage_lastRefreshed_amended (store : Store) (renv : RenderEnv)
    (res : RenderResult) (svg : SummarySvg)
    (h : generateSummaryImage store renv = .ok res) (hw : res.written = some svg) :
    (store.metadata = none → svg.lastRefreshedLine = "Last Refreshed: N/A") ∧
    (∀ t : ℤ, store.metadata = some { last_refreshed_at := some t } →
      svg.lastRefreshedLine = "Last Refreshed: " ++ toUTCString t) ∧
    (∀ row : MetadataRow, store.metadata = some row →
      svg.lastRefreshedLine ≠ "Last Refreshed: N/A") := by
  have hsvg := generateSummaryImage_written store renv res svg h hw
  subst hsvg
  refine ⟨?_, ?_, ?_⟩
  · intro hm
    simp [buildSvg, lastRefreshedOf, hm]
  · intro t hm
    simp [buildSvg, lastRefreshedOf, hm, newDate]
  · intro row hm
    simp only [buildSvg, lastRefreshedOf, hm]
    exact lastRefreshedLine_ne_na _ (toUTCString_ne_na _)

theorem generateSummaryImage_lastRefreshed_amended_witness :
    (buildSvg 0 (findTop5 noMetadataStore) (lastRefreshedOf noMetadataStore.metadata)
      ).lastRefreshedLine = "Last Refreshed: N/A" ∧
    (buildSvg 0 (findTop5 stampedStore) (lastRefreshedOf stampedStore.metadata)
      ).lastRefreshedLine = "Last Refreshed: " ++ toUTCString 1762300800000 ∧
    (buildSvg 0 (findTop5 freshStore) (lastRefreshedOf freshStore.metadata)
      ).lastRefreshedLine ≠ "Last Refreshed: N/A" :=
  ⟨(generateSummaryImage_lastRefreshed_amended noMetadataStore renderOk _ _ rfl rfl).1 rfl,
    (generateSummaryImage_lastRefreshed_amended stampedStore renderOk _ _ rfl rfl).2.1 _ rfl,
    (generateSummaryImage_lastRefreshed_amended freshStore renderOk _ _ rfl rfl).2.2 _ rfl⟩

/-- Claim C10. The renderer is started only by a run that has committed: then
the trace ends with the commit, the start of the renderer and the 200 response,
with no rollback before; a run that does not succeed never starts it. Whatever
fails inside `generateSummaryImage`, the call completes without raising, the
failure is logged and no file is written; and the response of a successful run
is the 200 response with the same `countries_processed` for every outcome of
the renderer. -/
theorem generateSummaryImage_fire_and_forget :
    (∀ (store : Store) (env : Env), (refreshCountries store env).image ≠ none →
      (refreshCountries store env).succeeded = true ∧
      ∃ before, (refreshCountries store env).trace =
          before ++ [.committed] ++ [.imageGenerationStarted, .responded 200] ∧
        Event.rolledBack ∉ before) ∧
    (∀ (store : Store) (env : Env), (refreshCountries store env).succeeded = false →
      (refreshCountries store env).image = none ∧
      Event.imageGenerationStarted ∉ (refreshCountries store env).trace) ∧
    (∀ (store : Store) (renv : RenderEnv),
      ∃ res, generateSummaryImage store renv = .ok res ∧
        ((renv.countOk && renv.findAllOk && renv.findByPkOk && renv.bufferOk &&
            renv.mkdirOk && renv.toFileOk) = false →
          res.written = none ∧
          ∃ e, LogEntry.error "Error generating summary image:" e ∈ res.log)) ∧
    (∀ (store : Store) (env : Env) (cs : List RawCountry) (renv : RenderEnv),
      env.countriesFetch = some cs → (refreshCountries store env).succeeded = true →
      (refreshCountries store { env with render := renv }).response
        = some (successResponse cs.length) ∧
      (refreshCountries store { env with render := renv }).response
        = (refreshCountries store env).response ∧
      (refreshCountries store { env with render := renv }).store
        = (refreshCountries store env).store) := by
  refine ⟨?_, ?_, ?_, ?_⟩
  · intro store env himg
    cases hopen : env.transactionOk with
    | false => simp [refreshCountries_not_opened store env hopen] at himg
    | true =>
        cases hgood : pipelineOk env with
        | false =>
            obtain ⟨db, e, hrun, -⟩ := refreshCountries_failed store env hopen hgood
            rw [hrun, (refreshCatch_store db env e).2] at himg
            exact absurd rfl himg
        | true =>
            refine ⟨(refreshCountries_succeeded_iff store env).mpr ⟨hopen, hgood⟩, ?_⟩
            have hgood2 := hgood
            unfold pipelineOk at hgood2
            cases hc : env.countriesFetch with
            | none => simp [hc] at hgood2
            | some cs =>
                cases hr : env.ratesFetch with
                | none => simp [hc, hr] at hgood2
                | some rs =>
                    rw [refreshCountries_ok store env cs rs hopen hc hr hgood]
                    refine ⟨_, rfl, ?_⟩
                    intro hmem
                    simp only [List.mem_append, List.mem_singleton] at hmem
                    rcases hmem with hmem | hmem
                    · rcases processCountries_trace env rs cs 0 _ _ hmem with h1 | ⟨n, h1⟩
                      · simp [openedDb] at h1
                      · cases h1
                    · cases hmem
  · intro store env hfail
    cases hopen : env.transactionOk with
    | false => simp [refreshCountries_not_opened store env hopen]
    | true =>
        cases hgood : pipelineOk env with
        | true =>
            rw [(refreshCountries_succeeded_iff store env).mpr ⟨hopen, hgood⟩] at hfail
            cases hfail
        | false =>
            obtain ⟨db, e, hrun, -, -, htr, -⟩ := refreshCountries_failed store env hopen hgood
            rw [hrun]
            refine ⟨(refreshCatch_store db env e).2, ?_⟩
            intro hmem
            rcases refreshCatch_trace db env e _ hmem with h1 | h1 | h1 | h1
            · rcases htr _ h1 with h2 | h2 | ⟨n, h2⟩ | h2 <;> cases h2
            · cases h1
            · cases h1
            · cases h1
  · intro store renv
    cases ht : summaryTry store renv with
    | ok svg =>
        refine ⟨_, by unfold generateSummaryImage; rw [ht], ?_⟩
        intro hbad
        obtain ⟨e, he⟩ := summaryTry_failed store renv hbad
        rw [ht] at he
        cases he
    | error e =>
        refine ⟨_, by unfold generateSummaryImage; rw [ht], fun _ => ⟨rfl, e, ?_⟩⟩
        simp
  · intro store env cs renv hc hs
    obtain ⟨hopen, hgood⟩ := (refreshCountries_succeeded_iff store env).mp hs
    obtain ⟨cs2, rs, hc2, hr⟩ := pipelineOk_fetched env hgood
    rw [refreshCountries_ok store env cs rs hopen hc hr hgood,
      refreshCountries_ok store { env with render := renv } cs rs hopen hc hr hgood]
    exact ⟨rfl, rfl, rfl⟩

theorem generateSummaryImage_fire_and_forget_witness :
    ((refreshCountries sampleStore okEnv).succeeded = true ∧
      ∃ before, (refreshCountries sampleStore okEnv).trace =
          before ++ [.committed] ++ [.imageGenerationStarted, .responded 200] ∧
        Event.rolledBack ∉ before) ∧
    ((refreshCountries sampleStore secondUpsertFails).image = none ∧
      Event.imageGenerationStarted ∉ (refreshCountries sampleStore secondUpsertFails).trace) ∧
    (∃ res, generateSummaryImage sampleStore mkdirFails.render = .ok res ∧
      res.written = none ∧
      ∃ e, LogEntry.error "Error generating summary image:" e ∈ res.log) ∧
    (refreshCountries sampleStore mkdirFails).response = some (successResponse 2) :=
  ⟨generateSummaryImage_fire_and_forget.1 sampleStore okEnv
      (by
        rw [refreshCountries_ok sampleStore okEnv [testland, otherland] testRates rfl rfl rfl
          (by decide)]
        simp),
    generateSummaryImage_fire_and_forget.2.1 sampleStore secondUpsertFails
      (by
        cases hs : (refreshCountries sampleStore secondUpsertFails).succeeded with
        | false => rfl
        | true =>
            have := ((refreshCountries_succeeded_iff sampleStore secondUpsertFails).mp hs).2
            revert this
            decide),
    (by
      obtain ⟨res, hres, himp⟩ :=
        generateSummaryImage_fire_and_forget.2.2.1 sampleStore mkdirFails.render
      exact ⟨res, hres, himp (by decide)⟩),
    (generateSummaryImage_fire_and_forget.2.2.2 sampleStore okEnv [testland, otherland]
      mkdirFails.render rfl
      ((refreshCountries_succeeded_iff sampleStore okEnv).mpr ⟨rfl, by decide⟩)).1⟩



end CountryCache
